import Mathlib

/-!
golang-web-proxy: blocklist, response cache, telemetry and request dispatch.

A shallow embedding of the Go sources

* `BlockedSites/blocked sites.go`  (the blocklist store),
* `CachedSites/cached sites.go`    (the response cache and its eviction sweep),
* `PerformanceData/performance data.go` (the telemetry aggregator),
* `Proxy/proxy.go`                 (the per-request dispatch engine),

followed by theorems about them.

Conventions of the embedding

* A Go `string` is a `GoString`, the list of its bytes (as characters).
* `time.Time` and `time.Duration` are integers counting nanoseconds.
* A Go `map` is an association list with at most one pair per key
  (`GoMap`); a `set.Set` of strings is a `Finset GoString`.
* The mutexes are not modelled: every operation is executed atomically and
  the handler of one request runs without interleaving.
* Everything the handler obtains from outside the process (the clock, the
  outbound HTTP client, the TCP dialer, the client connection, the browser
  launcher) is read from an explicit `Env` record, so that the handler is a
  pure function of the environment, the three stores and the request.
* A panic of `WriteHeader` (a status code outside 100..999) is recorded in
  the writer; the handler's run ends at that point, before any later store
  update or telemetry.
* Log output is not modelled.
-/

set_option autoImplicit false

/-! ## Go strings -/

/-- A Go string: a sequence of bytes, each byte written as the character
of the same code, so that `len(s)` is the length of the list. -/
abbrev GoString := List Char

namespace strings

/-- Whether `s` begins with `p` (Go `strings.HasPrefix`). -/
def startsWith : GoString → GoString → Bool
  | _, [] => true
  | [], _ :: _ => false
  | c :: cs, d :: ds => c == d && startsWith cs ds

/-- Go `strings.Contains(s, substr)`: `substr` occurs somewhere within `s`. -/
def Contains : GoString → GoString → Bool
  | [], substr => substr.isEmpty
  | c :: cs, substr => startsWith (c :: cs) substr || Contains cs substr

/-- Go `strings.Split(s, sep)` for a separator `sep` of one character:
the pieces of `s` between consecutive occurrences of `sep`; one more
piece than there are occurrences, so never an empty slice. -/
def Split (s : GoString) (sep : Char) : List GoString :=
  match s with
  | [] => [[]]
  | c :: cs =>
    if c = sep then [] :: Split cs sep
    else
      match Split cs sep with
      | [] => [[c]]
      | piece :: rest => (c :: piece) :: rest

end strings

/-! ## `net/url` and time -/

namespace url

/-- The fields of Go `url.URL` that carry text.  Two URLs are the same map
key exactly when all their fields agree. -/
structure URL where
  Scheme : GoString
  Opaque : GoString
  Host : GoString
  Path : GoString
  RawQuery : GoString
  Fragment : GoString
  deriving DecidableEq, Repr

end url

/-- A `time.Time` instant, in nanoseconds on the process clock. -/
abbrev Time := Int

/-- A `time.Duration`, in nanoseconds. -/
abbrev Duration := Int

/-- Go `time.Second`. -/
def time.Second : Duration := 1000000000

/-- Go `Duration.Milliseconds`: whole milliseconds, truncated toward zero. -/
def Duration.Milliseconds (d : Duration) : Int := Int.tdiv d 1000000

/-- Go `time.Since(t)` when the clock reads `now`. -/
def time.Since (now t : Time) : Duration := now - t

/-! ## Go maps -/

/-- A Go `map[κ]ν` as an association list. -/
abbrev GoMap (κ ν : Type) := List (κ × ν)

/-- Map lookup `m[k]` (the `v, exists := m[k]` form). -/
def GoMap.get {κ ν : Type} [DecidableEq κ] : GoMap κ ν → κ → Option ν
  | [], _ => none
  | (k1, v) :: rest, k => if k1 = k then some v else GoMap.get rest k

/-- Map assignment `m[k] = v`: replaces the value of `k` or adds the pair. -/
def GoMap.set {κ ν : Type} [DecidableEq κ] : GoMap κ ν → κ → ν → GoMap κ ν
  | [], k, v => [(k, v)]
  | (k1, v1) :: rest, k, v =>
    if k1 = k then (k, v) :: rest else (k1, v1) :: GoMap.set rest k v

/-- The keys of a Go map are pairwise distinct. -/
def GoMap.WF {κ ν : Type} (m : GoMap κ ν) : Prop := (m.map Prod.fst).Nodup

instance GoMap.decidableWF {κ ν : Type} [DecidableEq κ] (m : GoMap κ ν) :
    Decidable (GoMap.WF m) :=
  inferInstanceAs (Decidable (m.map Prod.fst).Nodup)

/-! ## BlockedSites -/

/-- The blocklist store: the set of blocked hosts. -/
structure BlockedSites where
  sites : Finset GoString
  deriving DecidableEq

namespace BlockedSites

/-- The empty blocklist (`New`). -/
def New : BlockedSites := ⟨∅⟩

/-- `Add(host)`: an error when `host` is already in the set, otherwise the
host is inserted as given.  Returns the new store and the Go `error`
(`none` is `nil`). -/
def Add (b : BlockedSites) (host : GoString) : BlockedSites × Option GoString :=
  if host ∈ b.sites then
    (b, some ("[BlockedSites] ".toList ++ host ++ " is already blocked".toList))
  else
    (⟨insert host b.sites⟩, none)

/-- `Remove(host)`: deletes `host` when present, an error otherwise. -/
def Remove (b : BlockedSites) (host : GoString) : BlockedSites × Option GoString :=
  if host ∈ b.sites then
    (⟨b.sites.erase host⟩, none)
  else
    (b, some ("[BlockedSites] ".toList ++ host ++ " is already unblocked".toList))

/-- The value of the local variable `host` of `IsBlocked` when it reaches
its `return`: the text before the first `:` of the URL host, then, if that
contains a `.`, its last two `.`-separated pieces joined by a `.`. -/
def lookupHost (siteHost : GoString) : GoString :=
  let host := siteHost
  let host :=
    if strings.Contains host ":".toList then (strings.Split host ':').getD 0 [] else host
  if strings.Contains host ".".toList then
    let splitUrl := strings.Split host '.'
    splitUrl.getD (splitUrl.length - 2) [] ++ ".".toList ++
      splitUrl.getD (splitUrl.length - 1) []
  else host

/-- `IsBlocked(site)`: membership of the reduced host in the set. -/
def IsBlocked (b : BlockedSites) (site : url.URL) : Bool :=
  decide (lookupHost site.Host ∈ b.sites)

end BlockedSites

/-- A URL with the given host and all other fields empty. -/
def urlOfHost (host : GoString) : url.URL :=
  { Scheme := [], Opaque := [], Host := host, Path := [], RawQuery := [], Fragment := [] }

/-! ## `net/http` -/

namespace http

/-- Go `http.Header`, a `map[string][]string`.  Keys are taken to be in
canonical form already, as they are in a parsed request or response. -/
abbrev Header := GoMap GoString (List GoString)

/-- The values stored under `key` (Go `h[key]`; empty when absent). -/
def Header.Values (h : Header) (key : GoString) : List GoString :=
  (GoMap.get h key).getD []

/-- Go `h.Add(key, value)`: appends `value` to the values of `key`. -/
def Header.Add (h : Header) (key value : GoString) : Header :=
  GoMap.set h key (Header.Values h key ++ [value])

/-- Go `h.Set(key, value)`: `key` now has the single value `value`. -/
def Header.Set (h : Header) (key value : GoString) : Header :=
  GoMap.set h key [value]

/-- Go `h.Get(key)`: the first value of `key`, or `""`. -/
def Header.Get (h : Header) (key : GoString) : GoString :=
  (Header.Values h key).headD []

/-- The part of a `*http.Response` that outlives the body stream. -/
structure Response where
  StatusCode : Int
  Header : Header
  deriving DecidableEq, Repr

/-- The fields of `*http.Request` the proxy reads or writes. -/
structure Request where
  Method : GoString
  URL : url.URL
  Proto : GoString
  Host : GoString
  Header : Header
  RequestURI : GoString
  deriving DecidableEq, Repr

def MethodConnect : GoString := "CONNECT".toList
def StatusOK : Int := 200
def StatusNotFound : Int := 404
def StatusInternalServerError : Int := 500
def StatusServiceUnavailable : Int := 503

/-- The state of the `http.ResponseWriter` handed to the handler. -/
structure ResponseWriter where
  /-- The header map returned by `w.Header()`. -/
  header : Header
  /-- Whether the status line and headers have been sent. -/
  wroteHeader : Bool
  /-- The status code that was sent (meaningful once `wroteHeader`). -/
  status : Int
  /-- The header map as it was when the status line was sent. -/
  sentHeader : Header
  /-- The body bytes the client connection has accepted so far. -/
  body : GoString
  /-- The number of `Write` calls made so far. -/
  writes : Nat
  /-- Whether a call on the writer has panicked.  A panic ends the run of
  the handler at that point: the server recovers from it and closes the
  connection. -/
  panicked : Bool
  deriving DecidableEq, Repr

/-- The writer the server hands to the handler of a new request. -/
def newResponseWriter : ResponseWriter :=
  { header := [], wroteHeader := false, status := 0, sentHeader := [], body := [],
    writes := 0, panicked := false }

/-- Go `checkWriteHeaderCode`: a status code is accepted when it has three
digits, `100 ≤ code ≤ 999`. -/
def validWriteHeaderCode (code : Int) : Bool := decide (100 ≤ code ∧ code ≤ 999)

/-- Go `w.WriteHeader(code)`: a call after the header was sent has no effect
on what was sent; otherwise the call panics when `checkWriteHeaderCode`
rejects the code, and else sends the status line and the current headers. -/
def ResponseWriter.WriteHeader (w : ResponseWriter) (code : Int) : ResponseWriter :=
  if w.wroteHeader then w
  else if validWriteHeaderCode code then
    { w with wroteHeader := true, status := code, sentHeader := w.header }
  else { w with panicked := true }

end http

/-! ## The outside world -/

/-- What `client.Do(req)` followed by `ioutil.ReadAll(resp.Body)` yields. -/
inductive FetchResult where
  /-- The call `client.Do` returned an error. -/
  | doFailed (err : GoString)
  /-- The round trip succeeded and reading the body returned an error. -/
  | readFailed (resp : http.Response) (err : GoString)
  /-- The round trip and the body read succeeded. -/
  | fetched (resp : http.Response) (body : GoString)

/-- Everything one run of the handler reads from outside the process.
An `Option GoString` is a Go `error`: `none` is `nil`. -/
structure Env where
  /-- The clock at `startTime := time.Now()` in `requestHandler`. -/
  startTime : Time
  /-- The clock at `time.Now()` inside `AddToCache`. -/
  cachedAt : Time
  /-- The clock when `time.Since(startTime)` is evaluated. -/
  endTime : Time
  /-- The outbound HTTP client. -/
  clientDo : http.Request → FetchResult
  /-- The error of `net.Dial("tcp", host)`. -/
  netDial : GoString → Option GoString
  /-- The error of the `n`-th `Write` on the client connection. -/
  clientWrite : Nat → Option GoString
  /-- Whether the writer implements `http.Hijacker`. -/
  hijacker : Bool
  /-- The error of `h.Hijack()`. -/
  hijack : Option GoString
  /-- Whether the dialed connection is a `*net.TCPConn`. -/
  destCreated : Bool
  /-- Whether the hijacked client connection is a `*net.TCPConn`. -/
  srcCreated : Bool
  /-- The error of `browser.OpenReader` on the given text. -/
  browserOpen : GoString → Option GoString

/-- The calls the handler makes to the world outside the client connection. -/
inductive Effect where
  /-- An outbound HTTP round trip `client.Do(req)`. -/
  | clientDo (req : http.Request)
  /-- An outbound `net.Dial("tcp", host)`. -/
  | netDial (host : GoString)
  /-- Taking over the client connection, `h.Hijack()`. -/
  | hijack
  /-- Starting the two copy tasks `go transferData(..)` of a tunnel. -/
  | transferData
  /-- Launching the browser on a text, `browser.OpenReader`. -/
  | browserOpen (text : GoString)
  deriving DecidableEq, Repr

/-- Whether an effect is an outbound fetch or an outbound dial. -/
def Effect.isOutbound : Effect → Bool
  | Effect.clientDo _ => true
  | Effect.netDial _ => true
  | _ => false

namespace http

/-- Go `w.Write(data)`: sends the header with status 200 if it has not been
sent, then hands the bytes to the connection.  Returns the error. -/
def ResponseWriter.Write (env : Env) (w : ResponseWriter) (data : GoString) :
    ResponseWriter × Option GoString :=
  let w := if w.wroteHeader then w else w.WriteHeader StatusOK
  match env.clientWrite w.writes with
  | none => ({ w with body := w.body ++ data, writes := w.writes + 1 }, none)
  | some err => ({ w with writes := w.writes + 1 }, some err)

/-- Go `http.Error(w, error, code)`: sets the plain-text content type, sends
the status and writes the message followed by a newline (the result of that
write is dropped). -/
def Error (env : Env) (w : ResponseWriter) (error : GoString) (code : Int) : ResponseWriter :=
  let w := { w with header := Header.Set w.header "Content-Type".toList
                      "text/plain; charset=utf-8".toList }
  let w := { w with header := Header.Set w.header "X-Content-Type-Options".toList
                      "nosniff".toList }
  let w := w.WriteHeader code
  if w.panicked then w else (w.Write env (error ++ "\n".toList)).1

end http

/-- Go `io.WriteString(w, s)` on a response writer. -/
def io.WriteString (env : Env) (w : http.ResponseWriter) (s : GoString) :
    http.ResponseWriter × Option GoString :=
  w.Write env s

/-! ## CachedSites -/

/-- One cached response: the response, its body and the insertion time. -/
structure cachedSiteInfo where
  resp : http.Response
  respBody : GoString
  cachedAt : Time
  deriving DecidableEq, Repr

/-- The response cache: a map from the request URL to the cached response. -/
structure CachedSites where
  cache : GoMap url.URL cachedSiteInfo
  deriving DecidableEq, Repr

namespace CachedSites

/-- The empty cache (`New`, without starting the eviction task). -/
def New : CachedSites := ⟨[]⟩

/-- `AddToCache(host, response, body)` when `time.Now()` reads `now`. -/
def AddToCache (c : CachedSites) (now : Time) (host : url.URL) (response : http.Response)
    (body : GoString) : CachedSites :=
  ⟨GoMap.set c.cache host { resp := response, respBody := body, cachedAt := now }⟩

/-- `GetFromCache(host)`: `some (resp, body)` stands for the Go result
`(true, resp, body)` and `none` for `(false, nil, "")`. -/
def GetFromCache (c : CachedSites) (host : url.URL) : Option (http.Response × GoString) :=
  match GoMap.get c.cache host with
  | some k => some (k.resp, k.respBody)
  | none => none

/-- Every cached response has a status code `WriteHeader` accepts. -/
def validStatuses (c : CachedSites) : Prop :=
  ∀ e ∈ c.cache, 100 ≤ e.2.resp.StatusCode ∧ e.2.resp.StatusCode ≤ 999

/-- Whether the eviction loop deletes an entry it examines when the clock
reads `now`: `time.Since(v.cachedAt) > 10*time.Second`. -/
def expired (now : Time) (v : cachedSiteInfo) : Bool :=
  decide (time.Since now v.cachedAt > 10 * time.Second)

/-- One pass of the outer `for` of `keepCacheClean`: the inner `range` loop
visits every entry once and deletes the expired ones.  `clock k` is the
reading of the clock when the entry of key `k` is examined. -/
def keepCacheCleanSweep (clock : url.URL → Time) (c : CachedSites) : CachedSites :=
  ⟨c.cache.filter (fun e => !expired (clock e.1) e.2)⟩

end CachedSites

/-! ## PerformanceData -/

/-- Latency samples of one URL, one lane per path. -/
structure TimingData where
  uncachedTimes : List Duration
  cachedTimes : List Duration
  deriving DecidableEq, Repr

/-- A bandwidth sample: the `float64` value of the Go expression
`float64(kilobytes) / (float64(millis) / float64(time.Second.Milliseconds()))`,
kept as its two integer operands. -/
structure BandwidthSample where
  kilobytes : Int
  millis : Int
  deriving DecidableEq, Repr

/-- The number a bandwidth sample stands for, computed exactly: the quotient
of `kilobytes` by `millis / time.Second.Milliseconds()`.  The `float64`
operations of the source compute this number up to rounding.  There is no
such number when `millis` is 0: the source then divides by `0.0` and the
sample is an infinity or a NaN. -/
def BandwidthSample.value (s : BandwidthSample) : Option ℚ :=
  if s.millis = 0 then none
  else some ((s.kilobytes : ℚ) / ((s.millis : ℚ) / ((time.Second.Milliseconds : Int) : ℚ)))

/-- Bandwidth samples of one URL, one lane per path. -/
structure BandWidthData where
  uncachedTimes : List BandwidthSample
  cachedTimes : List BandwidthSample
  deriving DecidableEq, Repr

/-- The telemetry aggregator. -/
structure PerformanceData where
  times : GoMap url.URL TimingData
  bandwidths : GoMap url.URL BandWidthData
  deriving DecidableEq, Repr

namespace PerformanceData

/-- The aggregator with no entry (`New`). -/
def New : PerformanceData := ⟨[], []⟩

/-- The sample computed from `contentLength` (an `int64`, divided by 1000
with Go integer division) and `responseTime`. -/
def bandwidthSample (responseTime : Duration) (contentLength : Int) : BandwidthSample :=
  { kilobytes := Int.tdiv contentLength 1000, millis := responseTime.Milliseconds }

/-- `AddSite(site)`: both lanes of both maps become empty for `site`. -/
def AddSite (p : PerformanceData) (site : url.URL) : PerformanceData :=
  { times := GoMap.set p.times site { uncachedTimes := [], cachedTimes := [] },
    bandwidths := GoMap.set p.bandwidths site { uncachedTimes := [], cachedTimes := [] } }

/-- `AddUncachedTime(site, responseTime, contentLength)`. -/
def AddUncachedTime (p : PerformanceData) (site : url.URL) (responseTime : Duration)
    (contentLength : Int) : PerformanceData :=
  let times :=
    match GoMap.get p.times site with
    | some responseTimes =>
      GoMap.set p.times site
        { responseTimes with uncachedTimes := responseTimes.uncachedTimes ++ [responseTime] }
    | none => GoMap.set p.times site { uncachedTimes := [responseTime], cachedTimes := [] }
  let bandwidths :=
    match GoMap.get p.bandwidths site with
    | some bandwidthTimes =>
      GoMap.set p.bandwidths site
        { bandwidthTimes with
          uncachedTimes :=
            bandwidthTimes.uncachedTimes ++ [bandwidthSample responseTime contentLength] }
    | none =>
      GoMap.set p.bandwidths site
        { uncachedTimes := [bandwidthSample responseTime contentLength], cachedTimes := [] }
  { times := times, bandwidths := bandwidths }

/-- `AddCachedTime(site, responseTime, contentLength)`. -/
def AddCachedTime (p : PerformanceData) (site : url.URL) (responseTime : Duration)
    (contentLength : Int) : PerformanceData :=
  let times :=
    match GoMap.get p.times site with
    | some responseTimes =>
      GoMap.set p.times site
        { responseTimes with cachedTimes := responseTimes.cachedTimes ++ [responseTime] }
    | none => GoMap.set p.times site { uncachedTimes := [], cachedTimes := [responseTime] }
  let bandwidths :=
    match GoMap.get p.bandwidths site with
    | some bandwidthTimes =>
      GoMap.set p.bandwidths site
        { bandwidthTimes with
          cachedTimes :=
            bandwidthTimes.cachedTimes ++ [bandwidthSample responseTime contentLength] }
    | none =>
      GoMap.set p.bandwidths site
        { uncachedTimes := [], cachedTimes := [bandwidthSample responseTime contentLength] }
  { times := times, bandwidths := bandwidths }

/-- The uncached latency lane of `site` (empty when `site` has no entry). -/
def uncachedLane (p : PerformanceData) (site : url.URL) : List Duration :=
  match GoMap.get p.times site with
  | some v => v.uncachedTimes
  | none => []

/-- The cached latency lane of `site` (empty when `site` has no entry). -/
def cachedLane (p : PerformanceData) (site : url.URL) : List Duration :=
  match GoMap.get p.times site with
  | some v => v.cachedTimes
  | none => []

/-- The uncached bandwidth lane of `site` (empty when `site` has no entry). -/
def uncachedBandwidthLane (p : PerformanceData) (site : url.URL) : List BandwidthSample :=
  match GoMap.get p.bandwidths site with
  | some v => v.uncachedTimes
  | none => []

/-- The cached bandwidth lane of `site` (empty when `site` has no entry). -/
def cachedBandwidthLane (p : PerformanceData) (site : url.URL) : List BandwidthSample :=
  match GoMap.get p.bandwidths site with
  | some v => v.cachedTimes
  | none => []

/-- Go `fmt.Sprintf("%dms", n)`. -/
def sprintfMs (n : Int) : GoString := (toString n).toList ++ "ms".toList

/-- The sum computed by the loop `for i := 0; i < len(ts); i++ { avg +=
ts[i].Milliseconds() }` started at 0.  (The `int64` accumulator is an
unbounded integer here: it would take more than 2^63 milliseconds of
samples to wrap.) -/
def sumMilliseconds (ts : List Duration) : Int :=
  ts.foldl (fun avg t => avg + t.Milliseconds) 0

/-- The value of `uncachedAvg` (resp. `cachedAvg`) after the two `if`s of
`GetAverageTimes`: the truncated quotient of the sum by the number of
samples, or -1 for a lane without samples. -/
def laneAverage (ts : List Duration) : Int :=
  if ts.length > 0 then Int.tdiv (sumMilliseconds ts) ts.length else -1

/-- The row `GetAverageTimes` appends for the entry `(k, v)`. -/
def averageTimesRow (k : url.URL) (v : TimingData) : List GoString :=
  let uncachedAvg := laneAverage v.uncachedTimes
  let cachedAvg := laneAverage v.cachedTimes
  if cachedAvg > 0 then [k.Host, sprintfMs uncachedAvg, sprintfMs cachedAvg]
  else [k.Host, sprintfMs uncachedAvg, "unused".toList]

/-- `GetAverageTimes()`: one row per entry of `times` (Go leaves the order
of the rows unspecified; here it is the order of the association list). -/
def GetAverageTimes (p : PerformanceData) : List (List GoString) :=
  p.times.map (fun e => averageTimesRow e.1 e.2)

end PerformanceData

/-! ## Proxy -/

/-- The proxy: the three stores (the `http.Server` is the caller of the
handler and is not part of the state). -/
structure Proxy where
  BlockedSites : BlockedSites
  PerformanceData : PerformanceData
  CachedSites : CachedSites
  deriving DecidableEq

/-- What one run of `requestHandler` leaves behind: the stores, the
response writer and the calls made to the outside, in order. -/
structure Outcome where
  proxy : Proxy
  w : http.ResponseWriter
  effects : List Effect
  deriving DecidableEq

namespace Proxy

/-- The proxy with three empty stores (`New`). -/
def New : Proxy :=
  { BlockedSites := BlockedSites.New, PerformanceData := PerformanceData.New,
    CachedSites := CachedSites.New }

/-- The constant `blockedMessage`. -/
def blockedMessage : GoString :=
  "\n<html>\n\t<body>\n\t\t<h1>This host has been blocked!</h1>\n\t</body>\n</html>".toList

/-- The header key under which `req.Header.Get("user-agent")` looks. -/
def userAgentKey : GoString := "User-Agent".toList

/-- The loop `for key, values := range resp.Header { for _, v := range
values { w.Header().Add(key, v); size += int64(len(v)) + int64(len(key)) } }`
that `handleCachedSite` and `handleHTTP` both run, from `size := 0`. -/
def copyHeaders (src : http.Header) (w : http.ResponseWriter) : http.ResponseWriter × Int :=
  src.foldl
    (fun acc kv =>
      kv.2.foldl
        (fun acc2 v =>
          ({ acc2.1 with header := http.Header.Add acc2.1.header kv.1 v },
            acc2.2 + ((v.length : Int) + (kv.1.length : Int))))
        acc)
    (w, 0)

/-- The header map `w.Header()` after the header loop, started from `h`. -/
def copiedHeader (src : http.Header) (h : http.Header) : http.Header :=
  src.foldl (fun acc kv => kv.2.foldl (fun acc2 v => http.Header.Add acc2 kv.1 v) acc) h

/-- The number the header loop adds to `size`: for every value of every key,
the length of the value plus the length of the key. -/
def headerBytes (h : http.Header) : Int :=
  (h.map (fun kv => (kv.2.map (fun v => (v.length : Int) + (kv.1.length : Int))).sum)).sum

/-- `handleCachedSite(w, req, resp, body)`: the writer, the effects and the
returned `int64` (of no meaning when the writer has panicked: the function
does not return then). -/
def handleCachedSite (env : Env) (w : http.ResponseWriter) (req : http.Request)
    (resp : http.Response) (body : GoString) : http.ResponseWriter × List Effect × Int :=
  let copied := copyHeaders resp.Header w
  let size := copied.2
  let w := copied.1.WriteHeader resp.StatusCode
  if w.panicked then (w, [], -1)
  else
    let written := io.WriteString env w body
    match written.2 with
    | some err => (http.Error env written.1 err http.StatusInternalServerError, [], -1)
    | none =>
      let w := written.1
      let agent := req.Header.Get userAgentKey
      if strings.Contains agent "curl".toList then
        match env.browserOpen body with
        | some err =>
          (http.Error env w err http.StatusInternalServerError, [Effect.browserOpen body], -1)
        | none => (w, [Effect.browserOpen body], (body.length : Int) + size)
      else (w, [], (body.length : Int) + size)

/-- `handleConnection(w, req)`: the writer and the effects. -/
def handleConnection (env : Env) (w : http.ResponseWriter) (req : http.Request) :
    http.ResponseWriter × List Effect :=
  match env.netDial req.URL.Host with
  | some err => (http.Error env w err http.StatusNotFound, [Effect.netDial req.URL.Host])
  | none =>
    let w := w.WriteHeader http.StatusOK
    if w.panicked then (w, [Effect.netDial req.URL.Host])
    else if !env.hijacker then
      (http.Error env w "Hijacking not supported".toList http.StatusServiceUnavailable,
        [Effect.netDial req.URL.Host])
    else
      match env.hijack with
      | some err =>
        (http.Error env w err http.StatusServiceUnavailable,
          [Effect.netDial req.URL.Host, Effect.hijack])
      | none =>
        if env.destCreated && env.srcCreated then
          (w, [Effect.netDial req.URL.Host, Effect.hijack, Effect.transferData])
        else
          (http.Error env w "Error creating tcp connection".toList
              http.StatusInternalServerError,
            [Effect.netDial req.URL.Host, Effect.hijack])

/-- `handleHTTP(w, req)`: the stores, the writer, the effects and the
returned `int64` (of no meaning when the writer has panicked: the function
does not return then).  `w.WriteHeader(resp.StatusCode)` comes before
`AddToCache`, so a panic there leaves the cache as it was. -/
def handleHTTP (env : Env) (p : Proxy) (w : http.ResponseWriter) (req : http.Request) :
    Proxy × http.ResponseWriter × List Effect × Int :=
  match env.clientDo req with
  | FetchResult.doFailed err =>
    (p, http.Error env w err http.StatusServiceUnavailable, [Effect.clientDo req], -1)
  | FetchResult.readFailed _ err =>
    (p, http.Error env w err http.StatusServiceUnavailable, [Effect.clientDo req], -1)
  | FetchResult.fetched resp body =>
    let copied := copyHeaders resp.Header w
    let size := copied.2
    let w := copied.1.WriteHeader resp.StatusCode
    if w.panicked then (p, w, [Effect.clientDo req], -1)
    else
      let p := { p with CachedSites := p.CachedSites.AddToCache env.cachedAt req.URL resp body }
      let written := io.WriteString env w body
      let w :=
        match written.2 with
        | some err => http.Error env written.1 err http.StatusInternalServerError
        | none => written.1
      if w.panicked then (p, w, [Effect.clientDo req], -1)
      else
        let agent := req.Header.Get userAgentKey
        if strings.Contains agent "curl".toList then
          match env.browserOpen body with
          | some err =>
            (p, http.Error env w err http.StatusInternalServerError,
              [Effect.clientDo req, Effect.browserOpen body], (body.length : Int) + size)
          | none =>
            (p, w, [Effect.clientDo req, Effect.browserOpen body], (body.length : Int) + size)
        else (p, w, [Effect.clientDo req], (body.length : Int) + size)

/-- `serveBlockedSite(w, req)`: the writer and the effects. -/
def serveBlockedSite (env : Env) (w : http.ResponseWriter) (req : http.Request) :
    http.ResponseWriter × List Effect :=
  let w := http.Error env w "This site has been blocked".toList http.StatusNotFound
  if w.panicked then (w, [])
  else
    let w := { w with header := http.Header.Set w.header "Content-Type".toList
                        "text/html; charset=utf-8".toList }
    let written := io.WriteString env w blockedMessage
    match written.2 with
    | some err => (http.Error env written.1 err http.StatusInternalServerError, [])
    | none =>
      let w := written.1
      if strings.Contains (req.Header.Get userAgentKey) "curl".toList then
        match env.browserOpen blockedMessage with
        | some err =>
          (http.Error env w err http.StatusInternalServerError,
            [Effect.browserOpen blockedMessage])
        | none => (w, [Effect.browserOpen blockedMessage])
      else (w, [])

/-- The last statement of `requestHandler`: the sample is recorded in the
cached lane when `cached` and `contentLength > 0`, in the uncached lane
when not `cached` and `contentLength > 0`, and not at all otherwise. -/
def recordTime (env : Env) (p : Proxy) (site : url.URL) (startTime : Time)
    (cached : Bool) (contentLength : Int) : Proxy :=
  let elapsedTime := time.Since env.endTime startTime
  if cached && decide (contentLength > 0) then
    { p with PerformanceData := p.PerformanceData.AddCachedTime site elapsedTime contentLength }
  else if contentLength > 0 then
    { p with
      PerformanceData := p.PerformanceData.AddUncachedTime site elapsedTime contentLength }
  else p

/-- `requestHandler(w, req)`.  When a call it makes panics, its run ends
there: the telemetry step is not reached, and the stores are as the run
left them. -/
def requestHandler (env : Env) (p : Proxy) (w : http.ResponseWriter) (req : http.Request) :
    Outcome :=
  if p.BlockedSites.IsBlocked req.URL then
    let served := serveBlockedSite env w req
    { proxy := p, w := served.1, effects := served.2 }
  else
    let startTime := env.startTime
    match p.CachedSites.GetFromCache req.URL with
    | some (x, y) =>
      let handled := handleCachedSite env w req x y
      let contentLength := handled.2.2
      if handled.1.panicked then { proxy := p, w := handled.1, effects := handled.2.1 }
      else
        { proxy := recordTime env p req.URL startTime true contentLength,
          w := handled.1, effects := handled.2.1 }
    | none =>
      let req := { req with RequestURI := [] }
      if req.Method = http.MethodConnect then
        let handled := handleConnection env w req
        if handled.1.panicked then { proxy := p, w := handled.1, effects := handled.2 }
        else
          { proxy := recordTime env p req.URL startTime false (-1),
            w := handled.1, effects := handled.2 }
      else
        let handled := handleHTTP env p w req
        let contentLength := handled.2.2.2
        if handled.2.1.panicked then
          { proxy := handled.1, w := handled.2.1, effects := handled.2.2.1 }
        else
          { proxy := recordTime env handled.1 req.URL startTime false contentLength,
            w := handled.2.1, effects := handled.2.2.1 }

/-- The server calling the handler for a new request: the writer is fresh. -/
def serve (env : Env) (p : Proxy) (req : http.Request) : Outcome :=
  requestHandler env p http.newResponseWriter req

end Proxy

/-! ## The host normalization in the words of the specification

`IsBlocked` is specified as set membership of a normalized host, where the
normalization "strips a trailing `:port` from the host and then, if the
remaining host contains a dot, reduces it to its last two dot-separated
labels joined by a dot".  The two definitions below follow these words and
not the code. -/

namespace Spec

/-- The host without a trailing `:port`: when the text after the last `:`
of the host consists of decimal digits only, that `:` and the digits are
removed; a host without such an ending is kept. -/
def stripTrailingPort (host : GoString) : GoString :=
  let port := (host.reverse.takeWhile (fun c => c != ':')).reverse
  if ':' ∈ host ∧ port.all Char.isDigit = true then
    host.take (host.length - (port.length + 1))
  else host

/-- The last two dot-separated labels joined by a dot, for a host that
contains a dot; a host without a dot is kept. -/
def lastTwoLabels (host : GoString) : GoString :=
  if '.' ∈ host then
    match (strings.Split host '.').reverse with
    | last :: secondLast :: _ => secondLast ++ ".".toList ++ last
    | _ => host
  else host

/-- The normalization of the specification. -/
def normalize (host : GoString) : GoString :=
  lastTwoLabels (stripTrailingPort host)

/-- The arithmetic mean of latency samples in whole milliseconds, in the
words of the specification: the sum of the samples, each in whole
milliseconds, divided by their number (an integer quotient). -/
def meanMilliseconds (ts : List Duration) : Int :=
  Int.tdiv (ts.map Duration.Milliseconds).sum ts.length

/-- The bandwidth of a transfer in the words of the specification: the
content length in kB, `contentLength / 1000`, divided by the elapsed time in
seconds (the elapsed time is given in nanoseconds). -/
def bandwidth (contentLength : Int) (elapsed : Duration) : ℚ :=
  ((contentLength : ℚ) / 1000) / ((elapsed : ℚ) / 1000000000)

end Spec

/-! ## Concrete inputs used by the evaluations below -/

namespace Example

/-- The host `example.com`. -/
def exampleCom : GoString := "example.com".toList

/-- The host `www.example.com`. -/
def wwwExampleCom : GoString := "www.example.com".toList

/-- The URL host of `http://[::1]:8080/`: an IPv6 literal with a port. -/
def ipv6WithPort : GoString := "[::1]:8080".toList

/-- The IPv6 literal `[::1]`. -/
def ipv6Literal : GoString := "[::1]".toList

/-- The URL `http://example.com/`. -/
def pageURL : url.URL :=
  { Scheme := "http".toList, Opaque := [], Host := exampleCom, Path := "/".toList,
    RawQuery := [], Fragment := [] }

/-- A response `200` with one header. -/
def okResponse : http.Response :=
  { StatusCode := 200, Header := [("Content-Type".toList, ["text/html".toList])] }

/-- A response body. -/
def pageBody : GoString := "<h1>hello</h1>".toList

/-- A response with the status code 99, as the Go client returns for an origin
that answers with the status line `HTTP/1.1 099`. -/
def status99Response : http.Response := { StatusCode := 99, Header := [] }

/-- As `calmEnv` below, but the origin answers with status 99. -/
def status99Env : Env :=
  { startTime := 0, cachedAt := 100000000, endTime := 150000000,
    clientDo := fun _ => FetchResult.fetched status99Response pageBody,
    netDial := fun _ => none, clientWrite := fun _ => none, hijacker := true,
    hijack := none, destCreated := true, srcCreated := true, browserOpen := fun _ => none }

/-- A response `204 No Content` without any header. -/
def emptyResponse : http.Response := { StatusCode := 204, Header := [] }

/-- The request `GET http://example.com/ HTTP/1.1` without headers. -/
def getPage : http.Request :=
  { Method := "GET".toList, URL := pageURL, Proto := "HTTP/1.1".toList, Host := exampleCom,
    Header := [], RequestURI := "http://example.com/".toList }

/-- A world in which every call succeeds: the origin answers `okResponse`
with `pageBody`, and the request takes 150 ms. -/
def calmEnv : Env :=
  { startTime := 0, cachedAt := 100000000, endTime := 150000000,
    clientDo := fun _ => FetchResult.fetched okResponse pageBody,
    netDial := fun _ => none, clientWrite := fun _ => none, hijacker := true,
    hijack := none, destCreated := true, srcCreated := true, browserOpen := fun _ => none }

/-- As `calmEnv`, but the origin answers `204` with no header and an empty
body. -/
def emptyReplyEnv : Env :=
  { calmEnv with clientDo := fun _ => FetchResult.fetched emptyResponse [] }

/-- As `calmEnv`, but every write on the client connection fails. -/
def brokenClientEnv : Env :=
  { calmEnv with clientWrite := fun _ => some "broken pipe".toList }

/-- A proxy whose blocklist holds `example.com`. -/
def blockingProxy : Proxy :=
  { Proxy.New with BlockedSites := (BlockedSites.New.Add exampleCom).1 }

/-- A proxy whose cache holds `okResponse` with `pageBody` for `pageURL`. -/
def warmProxy : Proxy :=
  { Proxy.New with
    CachedSites := CachedSites.New.AddToCache 0 pageURL okResponse pageBody }

/-- A proxy whose cache holds the empty `204` response for `pageURL`. -/
def warmEmptyProxy : Proxy :=
  { Proxy.New with CachedSites := CachedSites.New.AddToCache 0 pageURL emptyResponse [] }

/-- Latency samples of 100 ms and 200 ms. -/
def ms100 : Duration := 100000000

/-- A latency of 200 ms. -/
def ms200 : Duration := 200000000

/-- A latency of half a millisecond. -/
def us500 : Duration := 500000

/-- A latency of exactly one second. -/
def oneSecond : Duration := 1000000000

end Example

/-! # Theorems -/

/-! ## Strings -/

namespace strings

theorem startsWith_nil (s : GoString) : startsWith s [] = true := by
  cases s <;> rfl

theorem contains_single (s : GoString) (c : Char) : Contains s [c] = true ↔ c ∈ s := by
  induction s with
  | nil => simp [Contains]
  | cons d ds ih =>
    simp only [Contains, startsWith, startsWith_nil, Bool.or_eq_true, Bool.and_eq_true, ih,
      List.mem_cons, beq_iff_eq, and_true]
    constructor
    · rintro (h | h)
      · exact Or.inl h.symm
      · exact Or.inr h
    · rintro (h | h)
      · exact Or.inl h.symm
      · exact Or.inr h

theorem split_ne_nil (s : GoString) (sep : Char) : Split s sep ≠ [] := by
  cases s with
  | nil => simp [Split]
  | cons c cs =>
    unfold Split
    split
    · simp
    · split <;> simp

theorem split_of_not_mem (s : GoString) (sep : Char) (h : sep ∉ s) : Split s sep = [s] := by
  induction s with
  | nil => simp [Split]
  | cons c cs ih =>
    simp only [List.mem_cons, not_or] at h
    unfold Split
    rw [if_neg (fun e => h.1 e.symm), ih h.2]

theorem split_append_sep (a b : GoString) (sep : Char) :
    Split (a ++ sep :: b) sep = Split a sep ++ Split b sep := by
  induction a with
  | nil => simp [Split]
  | cons c cs ih =>
    have hne := split_ne_nil cs sep
    by_cases hc : c = sep
    · simp only [List.cons_append]
      rw [Split, if_pos hc, ih]
      conv_rhs => rw [Split, if_pos hc]
      simp
    · simp only [List.cons_append]
      rw [Split, if_neg hc, ih]
      conv_rhs => rw [Split, if_neg hc]
      cases hsp : Split cs sep with
      | nil => exact absurd hsp hne
      | cons p r => simp

end strings

/-! ## BlockedSites -/

namespace BlockedSites

theorem getD_append_two (P : List GoString) (a c : GoString) :
    (P ++ [a, c]).getD P.length [] = a ∧ (P ++ [a, c]).getD (P.length + 1) [] = c := by
  induction P with
  | nil => exact ⟨rfl, rfl⟩
  | cons p ps ih => simpa using ih

theorem lookupHost_of_no_colon (h : GoString) (hc : ':' ∉ h) :
    lookupHost h =
      if '.' ∈ h then
        (strings.Split h '.').getD ((strings.Split h '.').length - 2) [] ++ ['.'] ++
          (strings.Split h '.').getD ((strings.Split h '.').length - 1) []
      else h := by
  have h1 : strings.Contains h [':'] = false := by
    rw [Bool.eq_false_iff]
    intro hcon
    exact hc ((strings.contains_single h ':').1 hcon)
  have e1 : ":".toList = [':'] := rfl
  have e2 : ".".toList = ['.'] := rfl
  unfold lookupHost
  simp only [e1, e2, h1]
  by_cases hd : '.' ∈ h
  · have h2 : strings.Contains h ['.'] = true := (strings.contains_single h '.').2 hd
    simp [h2, hd]
  · have h2 : strings.Contains h ['.'] = false := by
      rw [Bool.eq_false_iff]
      intro hcon
      exact hd ((strings.contains_single h '.').1 hcon)
    simp [h2, hd]

theorem lookupHost_strip_port (h port : GoString) (hc : ':' ∉ h) :
    lookupHost (h ++ ':' :: port) = lookupHost h := by
  have h1 : strings.Contains (h ++ ':' :: port) [':'] = true :=
    (strings.contains_single _ ':').2 (by simp)
  have h2 : strings.Contains h [':'] = false := by
    rw [Bool.eq_false_iff]
    intro hcon
    exact hc ((strings.contains_single h ':').1 hcon)
  have e1 : ":".toList = [':'] := rfl
  have h3 : (strings.Split (h ++ ':' :: port) ':').getD 0 [] = h := by
    rw [strings.split_append_sep, strings.split_of_not_mem h ':' hc]
    rfl
  unfold lookupHost
  simp only [e1, h1, h2, h3, if_true]
  simp

theorem lookupHost_two_labels (s a c : GoString) (hs : ':' ∉ s)
    (ha : ':' ∉ a ∧ '.' ∉ a) (hc : ':' ∉ c ∧ '.' ∉ c) :
    lookupHost (s ++ '.' :: (a ++ '.' :: c)) = a ++ '.' :: c ∧
      lookupHost (a ++ '.' :: c) = a ++ '.' :: c := by
  have key : ∀ P : List GoString,
      (P ++ [a, c]).getD ((P ++ [a, c]).length - 2) [] ++ ['.'] ++
        (P ++ [a, c]).getD ((P ++ [a, c]).length - 1) [] = a ++ '.' :: c := by
    intro P
    have e1 : (P ++ [a, c]).length - 2 = P.length := by simp
    have e2 : (P ++ [a, c]).length - 1 = P.length + 1 := by simp
    rw [e1, e2, (getD_append_two P a c).1, (getD_append_two P a c).2]
    simp
  have sp : strings.Split (a ++ '.' :: c) '.' = [a, c] := by
    rw [strings.split_append_sep, strings.split_of_not_mem a '.' ha.2,
      strings.split_of_not_mem c '.' hc.2]
    rfl
  constructor
  · rw [lookupHost_of_no_colon _ (by simp [hs, ha.1, hc.1])]
    rw [if_pos (by simp), strings.split_append_sep, sp]
    exact key _
  · rw [lookupHost_of_no_colon _ (by simp [ha.1, hc.1])]
    rw [if_pos (by simp), sp]
    exact key []

end BlockedSites

/-- C7: `Add(h)` returns an error exactly when `h` is already in the set and
otherwise inserts `h`; `Remove(h)` returns an error exactly when `h` is not
in the set and otherwise deletes `h`; a failing `Add` or `Remove` leaves the
store as it was.  In particular a second `Add(h)` in a row fails, and so does
a `Remove(h)` that follows a `Remove(h)`. -/
theorem blocklist_mutation_errors (b : BlockedSites) (h : GoString) :
    ((b.Add h).2.isSome = true ↔ h ∈ b.sites) ∧
    (b.Add h).1 = (if h ∈ b.sites then b else ⟨insert h b.sites⟩) ∧
    ((b.Remove h).2.isSome = true ↔ h ∉ b.sites) ∧
    (b.Remove h).1 = (if h ∈ b.sites then ⟨b.sites.erase h⟩ else b) ∧
    ((b.Add h).1.Add h).2.isSome = true ∧
    ((b.Remove h).1.Remove h).2.isSome = true := by
  by_cases hm : h ∈ b.sites <;> simp [BlockedSites.Add, BlockedSites.Remove, hm]

/-- C8 (evaluation of the code where it departs from the claim): with the
IPv6 literal `[::1]` on the blocklist, `IsBlocked` answers false for the URL
host `[::1]:8080`, because it looks up `[`, the text before the first
colon; the normalization of the specification strips the trailing `:8080`,
gives `[::1]` and reports membership. -/
theorem isBlocked_ipv6_host_not_normalized :
    BlockedSites.lookupHost Example.ipv6WithPort = "[".toList ∧
    BlockedSites.IsBlocked ⟨{Example.ipv6Literal}⟩ (urlOfHost Example.ipv6WithPort) = false ∧
    Spec.normalize Example.ipv6WithPort = Example.ipv6Literal ∧
    Spec.normalize (urlOfHost Example.ipv6WithPort).Host ∈
      ({Example.ipv6Literal} : Finset GoString) := by
  decide

/-- C2 as stated fails: on the empty blocklist `Add("www.example.com")`
succeeds, and `IsBlocked` is still false for a URL whose host is
`www.example.com`, because `Add` stores the host as given while `IsBlocked`
looks up `example.com`. -/
theorem add_does_not_normalize :
    (BlockedSites.New.Add Example.wwwExampleCom).2 = none ∧
    (BlockedSites.New.Add Example.wwwExampleCom).1.IsBlocked
      (urlOfHost Example.wwwExampleCom) = false := by
  decide

/-- C2, amended: let `h = a.c` be a host of two labels, neither containing
`.` or `:`.  After `Add(h)` succeeds, `IsBlocked` is true for every URL
whose host is `h`, `s.h` (for any `s` without `:`) or `h:port`; the
following `Remove(h)` succeeds, and after it `IsBlocked` is false for all
of them. -/
theorem add_remove_isBlocked_two_labels (b : BlockedSites) (a c s port : GoString)
    (ha : ':' ∉ a ∧ '.' ∉ a) (hc : ':' ∉ c ∧ '.' ∉ c) (hs : ':' ∉ s)
    (hadd : (b.Add (a ++ '.' :: c)).2 = none) (u : url.URL)
    (hu : u.Host = a ++ '.' :: c ∨ u.Host = s ++ '.' :: (a ++ '.' :: c) ∨
      u.Host = (a ++ '.' :: c) ++ ':' :: port) :
    (b.Add (a ++ '.' :: c)).1.IsBlocked u = true ∧
    ((b.Add (a ++ '.' :: c)).1.Remove (a ++ '.' :: c)).2 = none ∧
    ((b.Add (a ++ '.' :: c)).1.Remove (a ++ '.' :: c)).1.IsBlocked u = false := by
  have hl : BlockedSites.lookupHost u.Host = a ++ '.' :: c := by
    rcases hu with hu | hu | hu
    · rw [hu]; exact (BlockedSites.lookupHost_two_labels [] a c (by simp) ha hc).2
    · rw [hu]; exact (BlockedSites.lookupHost_two_labels s a c hs ha hc).1
    · rw [hu, BlockedSites.lookupHost_strip_port _ _ (by simp [ha.1, hc.1])]
      exact (BlockedSites.lookupHost_two_labels [] a c (by simp) ha hc).2
  have hnot : a ++ '.' :: c ∉ b.sites := by
    intro hm
    simp [BlockedSites.Add, hm] at hadd
  simp [BlockedSites.Add, BlockedSites.Remove, BlockedSites.IsBlocked, hnot, hl]

/-- C2, amended, at `h = example.com`, subdomain `www` and port `8080` on the
empty blocklist, for the URL host `www.example.com`. -/
theorem add_remove_isBlocked_two_labels_witness :
    (BlockedSites.New.Add Example.exampleCom).1.IsBlocked
        (urlOfHost Example.wwwExampleCom) = true ∧
    ((BlockedSites.New.Add Example.exampleCom).1.Remove Example.exampleCom).2 = none ∧
    ((BlockedSites.New.Add Example.exampleCom).1.Remove Example.exampleCom).1.IsBlocked
        (urlOfHost Example.wwwExampleCom) = false :=
  add_remove_isBlocked_two_labels BlockedSites.New "example".toList "com".toList
    "www".toList "8080".toList (by decide) (by decide) (by decide) (by decide)
    (urlOfHost Example.wwwExampleCom) (Or.inr (Or.inl (by decide)))

/-! ## Go maps -/

namespace GoMap

variable {κ ν : Type} [DecidableEq κ]

theorem get_set_self (m : GoMap κ ν) (k : κ) (v : ν) : GoMap.get (GoMap.set m k v) k = some v := by
  induction m with
  | nil => simp [GoMap.set, GoMap.get]
  | cons e rest ih =>
    obtain ⟨k1, v1⟩ := e
    by_cases h : k1 = k
    · simp [GoMap.set, GoMap.get, h]
    · simp [GoMap.set, GoMap.get, h, ih]

theorem get_set_other (m : GoMap κ ν) (k k2 : κ) (v : ν) (hne : k ≠ k2) :
    GoMap.get (GoMap.set m k v) k2 = GoMap.get m k2 := by
  induction m with
  | nil => simp [GoMap.set, GoMap.get, hne]
  | cons e rest ih =>
    obtain ⟨k1, v1⟩ := e
    by_cases h : k1 = k
    · subst h
      simp [GoMap.set, GoMap.get, hne]
    · by_cases h2 : k1 = k2
      · subst h2
        simp [GoMap.set, GoMap.get, h]
      · simp [GoMap.set, GoMap.get, h, h2, ih]

theorem get_eq_none_of_not_mem (m : GoMap κ ν) (k : κ) (h : k ∉ m.map Prod.fst) :
    GoMap.get m k = none := by
  induction m with
  | nil => rfl
  | cons e rest ih =>
    obtain ⟨k1, v1⟩ := e
    simp only [List.map_cons, List.mem_cons, not_or] at h
    simp [GoMap.get, Ne.symm h.1, ih h.2]

theorem mem_keys_set (m : GoMap κ ν) (k : κ) (v : ν) (x : κ) :
    x ∈ (GoMap.set m k v).map Prod.fst ↔ x = k ∨ x ∈ m.map Prod.fst := by
  induction m with
  | nil => simp [GoMap.set]
  | cons e rest ih =>
    obtain ⟨k1, v1⟩ := e
    by_cases h : k1 = k
    · subst h
      simp [GoMap.set]
    · simp only [GoMap.set, h, if_false, List.map_cons, List.mem_cons, ih]
      tauto

theorem wf_set (m : GoMap κ ν) (k : κ) (v : ν) (h : GoMap.WF m) : GoMap.WF (GoMap.set m k v) := by
  induction m with
  | nil => simp [GoMap.set, GoMap.WF]
  | cons e rest ih =>
    obtain ⟨k1, v1⟩ := e
    unfold GoMap.WF at h ih ⊢
    simp only [List.map_cons, List.nodup_cons] at h
    by_cases hk : k1 = k
    · subst hk
      simpa [GoMap.set] using h
    · simp only [GoMap.set, hk, if_false, List.map_cons, List.nodup_cons]
      refine ⟨?_, ih h.2⟩
      intro hmem
      rcases (mem_keys_set rest k v k1).1 hmem with h1 | h1
      · exact hk h1
      · exact h.1 h1

omit [DecidableEq κ] in
theorem wf_filter (m : GoMap κ ν) (f : κ × ν → Bool) (h : GoMap.WF m) :
    GoMap.WF (m.filter f) := by
  unfold GoMap.WF at h ⊢
  exact (List.Nodup.sublist ((List.filter_sublist m).map Prod.fst) h)

theorem get_filter (m : GoMap κ ν) (f : κ → ν → Bool) (k : κ) (h : GoMap.WF m) :
    GoMap.get (m.filter (fun e => f e.1 e.2)) k =
      match GoMap.get m k with
      | some v => if f k v = true then some v else none
      | none => none := by
  induction m with
  | nil => rfl
  | cons e rest ih =>
    obtain ⟨k1, v1⟩ := e
    unfold GoMap.WF at h ih
    simp only [List.map_cons, List.nodup_cons] at h
    by_cases hk : k1 = k
    · subst hk
      have hnone : GoMap.get rest k1 = none := get_eq_none_of_not_mem rest k1 h.1
      by_cases hf : f k1 v1 = true
      · simp [List.filter, hf, GoMap.get]
      · have hres := ih h.2
        rw [hnone] at hres
        simp [List.filter, hf, GoMap.get, hres]
    · have hres := ih h.2
      by_cases hf : f k1 v1 = true
      · simp [List.filter, hf, GoMap.get, hk, hres]
      · simp [List.filter, hf, GoMap.get, hk, hres]

end GoMap

/-! ## CachedSites -/

theorem CachedSites.get_after_add (c : CachedSites) (now : Time) (k : url.URL)
    (response : http.Response) (body : GoString) :
    (c.AddToCache now k response body).GetFromCache k = some (response, body) := by
  simp [CachedSites.AddToCache, CachedSites.GetFromCache, GoMap.get_set_self]

/-- C5: for every cache state, key, response and body, `AddToCache`
followed immediately by `GetFromCache` of the same key returns
`(true, response, body)`, whatever the cache held for that key before. -/
theorem cache_round_trip (c : CachedSites) (now : Time) (k : url.URL)
    (response : http.Response) (body : GoString) :
    (c.AddToCache now k response body).GetFromCache k = some (response, body) :=
  CachedSites.get_after_add c now k response body

/-- C6: one sweep of `keepCacheClean` deletes exactly the entries whose age
`now - cachedAt` exceeds 10 seconds (10^10 ns) at the instant `clock k` at
which they are examined, and leaves every other entry as it was (a sweep
run at one time `now` is the case of a constant `clock`).  Hence an entry
inserted at time `T` is still returned by `GetFromCache` after a sweep that
examines it no later than `T + 10s`, and is absent after a sweep that
examines it later than `T + 10s`. -/
theorem cache_ttl_eviction (c : CachedSites) (hwf : GoMap.WF c.cache)
    (clock : url.URL → Time) :
    (∀ k : url.URL,
      GoMap.get (c.keepCacheCleanSweep clock).cache k =
        match GoMap.get c.cache k with
        | some v => if clock k - v.cachedAt > 10000000000 then none else some v
        | none => none) ∧
    (∀ (T : Time) (k : url.URL) (resp : http.Response) (body : GoString),
      clock k ≤ T + 10000000000 →
        ((c.AddToCache T k resp body).keepCacheCleanSweep clock).GetFromCache k =
          some (resp, body)) ∧
    (∀ (T : Time) (k : url.URL) (resp : http.Response) (body : GoString),
      clock k > T + 10000000000 →
        ((c.AddToCache T k resp body).keepCacheCleanSweep clock).GetFromCache k = none) := by
  have sweep : ∀ (d : CachedSites), GoMap.WF d.cache → ∀ k : url.URL,
      GoMap.get (d.keepCacheCleanSweep clock).cache k =
        match GoMap.get d.cache k with
        | some v => if clock k - v.cachedAt > 10000000000 then none else some v
        | none => none := by
    intro d hd k
    have h := GoMap.get_filter d.cache
      (fun key v => !CachedSites.expired (clock key) v) k hd
    simp only [CachedSites.keepCacheCleanSweep]
    rw [h]
    cases GoMap.get d.cache k with
    | none => rfl
    | some v =>
      by_cases hv : clock k - v.cachedAt > 10000000000
      · simp [CachedSites.expired, time.Since, time.Second, hv]
      · simp [CachedSites.expired, time.Since, time.Second, hv]
  refine ⟨sweep c hwf, ?_, ?_⟩
  · intro T k resp body hle
    have hd : GoMap.WF (c.AddToCache T k resp body).cache := GoMap.wf_set _ _ _ hwf
    have h := sweep _ hd k
    simp only [CachedSites.AddToCache, GoMap.get_set_self] at h
    have arith : ∀ a b : Int, a ≤ b + 10000000000 → ¬ (a - b > 10000000000) := by
      intro a b hab
      omega
    have hnot : ¬ (clock k - T > 10000000000) := arith _ _ hle
    simp only [CachedSites.GetFromCache, CachedSites.AddToCache, h, hnot, if_false]
  · intro T k resp body hgt
    have hd : GoMap.WF (c.AddToCache T k resp body).cache := GoMap.wf_set _ _ _ hwf
    have h := sweep _ hd k
    simp only [CachedSites.AddToCache, GoMap.get_set_self] at h
    have arith : ∀ a b : Int, a > b + 10000000000 → a - b > 10000000000 := by
      intro a b hab
      omega
    have hyes : clock k - T > 10000000000 := arith _ _ hgt
    simp only [CachedSites.GetFromCache, CachedSites.AddToCache, h, hyes, if_true]

/-- C6 at a concrete cache: a page cached at time 0 is still returned after
a sweep at 9.999999999 s and is gone after a sweep at 10.000000001 s. -/
theorem cache_ttl_eviction_witness :
    GoMap.WF CachedSites.New.cache ∧
    ((CachedSites.New.AddToCache 0 Example.pageURL Example.okResponse
        Example.pageBody).keepCacheCleanSweep (fun _ => 9999999999)).GetFromCache
        Example.pageURL = some (Example.okResponse, Example.pageBody) ∧
    ((CachedSites.New.AddToCache 0 Example.pageURL Example.okResponse
        Example.pageBody).keepCacheCleanSweep (fun _ => 10000000001)).GetFromCache
        Example.pageURL = none :=
  ⟨by decide,
    (cache_ttl_eviction CachedSites.New (by decide) (fun _ => 9999999999)).2.1 0
      Example.pageURL Example.okResponse Example.pageBody (by decide),
    (cache_ttl_eviction CachedSites.New (by decide) (fun _ => 10000000001)).2.2 0
      Example.pageURL Example.okResponse Example.pageBody (by decide)⟩

/-! ## PerformanceData -/

namespace PerformanceData

theorem uncachedLane_addUncached (p : PerformanceData) (site : url.URL) (d : Duration)
    (n : Int) :
    (p.AddUncachedTime site d n).uncachedLane site = p.uncachedLane site ++ [d] ∧
    (p.AddUncachedTime site d n).cachedLane site = p.cachedLane site := by
  unfold AddUncachedTime uncachedLane cachedLane
  cases h : GoMap.get p.times site <;> simp [GoMap.get_set_self]

theorem lanes_addUncached_other (p : PerformanceData) (site other : url.URL) (d : Duration)
    (n : Int) (hne : site ≠ other) :
    (p.AddUncachedTime site d n).uncachedLane other = p.uncachedLane other ∧
    (p.AddUncachedTime site d n).cachedLane other = p.cachedLane other := by
  unfold AddUncachedTime uncachedLane cachedLane
  cases h : GoMap.get p.times site <;> simp [GoMap.get_set_other _ _ _ _ hne]

theorem cachedLane_addCached (p : PerformanceData) (site : url.URL) (d : Duration)
    (n : Int) :
    (p.AddCachedTime site d n).cachedLane site = p.cachedLane site ++ [d] ∧
    (p.AddCachedTime site d n).uncachedLane site = p.uncachedLane site := by
  unfold AddCachedTime uncachedLane cachedLane
  cases h : GoMap.get p.times site <;> simp [GoMap.get_set_self]

theorem lanes_addCached_other (p : PerformanceData) (site other : url.URL) (d : Duration)
    (n : Int) (hne : site ≠ other) :
    (p.AddCachedTime site d n).uncachedLane other = p.uncachedLane other ∧
    (p.AddCachedTime site d n).cachedLane other = p.cachedLane other := by
  unfold AddCachedTime uncachedLane cachedLane
  cases h : GoMap.get p.times site <;> simp [GoMap.get_set_other _ _ _ _ hne]

/-- What `GetAverageTimes` prints for one entry: the uncached column is
always a number, -1 for a lane without samples; the cached column is the
lane average when that is positive and `unused` otherwise. -/
theorem averageTimesRow_columns (k : url.URL) (v : TimingData) :
    averageTimesRow k v =
      [k.Host, sprintfMs (laneAverage v.uncachedTimes),
        if laneAverage v.cachedTimes > 0 then sprintfMs (laneAverage v.cachedTimes)
        else "unused".toList] := by
  unfold averageTimesRow
  by_cases h : laneAverage v.cachedTimes > 0 <;> simp [h]

end PerformanceData

theorem PerformanceData.sumMilliseconds_eq (ts : List Duration) :
    PerformanceData.sumMilliseconds ts = (ts.map Duration.Milliseconds).sum := by
  have gen : ∀ (l : List Duration) (a : Int),
      l.foldl (fun avg t => avg + t.Milliseconds) a = a + (l.map Duration.Milliseconds).sum := by
    intro l
    induction l with
    | nil => intro a; simp
    | cons t rest ih =>
      intro a
      simp only [List.foldl, ih, List.map_cons, List.sum_cons]
      simp [add_assoc]
  unfold PerformanceData.sumMilliseconds
  rw [gen]
  simp

theorem PerformanceData.laneAverage_eq (ts : List Duration) :
    PerformanceData.laneAverage ts =
      if ts = [] then -1 else Spec.meanMilliseconds ts := by
  unfold PerformanceData.laneAverage Spec.meanMilliseconds
  rw [PerformanceData.sumMilliseconds_eq]
  cases ts with
  | nil => simp
  | cons t rest => simp

/-- The test `cachedAvg > 0` of `GetAverageTimes` also catches an average of
zero: after one uncached sample of 100 ms and one cached sample of 0.5 ms
for a URL, the cached lane has one sample, of 0 whole milliseconds, and the
row reports `unused` for it. -/
theorem getAverageTimes_zero_average_reported_unused :
    ((PerformanceData.New.AddUncachedTime Example.pageURL Example.ms100 5000).AddCachedTime
        Example.pageURL Example.us500 5000).cachedLane Example.pageURL = [Example.us500] ∧
    Spec.meanMilliseconds [Example.us500] = 0 ∧
    ((PerformanceData.New.AddUncachedTime Example.pageURL Example.ms100 5000).AddCachedTime
        Example.pageURL Example.us500 5000).GetAverageTimes =
      [[Example.exampleCom, "100ms".toList, "unused".toList]] := by
  decide

/-- C10 as stated fails: after a cached sample of 200 ms for a URL without
any uncached sample, the uncached lane of the entry has zero samples and
`GetAverageTimes` reports `-1ms` in the uncached column, not `unused`; the
same holds for the entry `AddSite` creates. -/
theorem getAverageTimes_empty_uncached_lane_reads_minus_one :
    (PerformanceData.New.AddCachedTime Example.pageURL Example.ms200 5000).uncachedLane
      Example.pageURL = [] ∧
    (PerformanceData.New.AddCachedTime Example.pageURL Example.ms200 5000).GetAverageTimes =
      [[Example.exampleCom, "-1ms".toList, "200ms".toList]] ∧
    (PerformanceData.New.AddSite Example.pageURL).GetAverageTimes =
      [[Example.exampleCom, "-1ms".toList, "unused".toList]] := by
  decide

/-- C10, amended: `GetAverageTimes` returns one row per entry, and the row
of an entry is the host followed by two columns.  The uncached column is the
arithmetic mean of the uncached samples in whole milliseconds when the lane
has at least one sample, and `-1ms` when it has none.  The cached column is
`unused` when the cached lane has no sample, and the arithmetic mean of the
cached samples in whole milliseconds when the lane has at least one sample
and that mean is positive. -/
theorem getAverageTimes_columns (p : PerformanceData) :
    p.GetAverageTimes.length = p.times.length ∧
    ∀ e ∈ p.times, ∃ c1 c2 : GoString,
      [e.1.Host, c1, c2] ∈ p.GetAverageTimes ∧
      (e.2.uncachedTimes ≠ [] →
        c1 = PerformanceData.sprintfMs (Spec.meanMilliseconds e.2.uncachedTimes)) ∧
      (e.2.uncachedTimes = [] → c1 = "-1ms".toList) ∧
      (e.2.cachedTimes = [] → c2 = "unused".toList) ∧
      (e.2.cachedTimes ≠ [] → 0 < Spec.meanMilliseconds e.2.cachedTimes →
        c2 = PerformanceData.sprintfMs (Spec.meanMilliseconds e.2.cachedTimes)) := by
  refine ⟨by simp [PerformanceData.GetAverageTimes], ?_⟩
  intro e he
  refine ⟨PerformanceData.sprintfMs (PerformanceData.laneAverage e.2.uncachedTimes),
    if PerformanceData.laneAverage e.2.cachedTimes > 0 then
      PerformanceData.sprintfMs (PerformanceData.laneAverage e.2.cachedTimes)
    else "unused".toList, ?_, ?_, ?_, ?_, ?_⟩
  · unfold PerformanceData.GetAverageTimes
    rw [List.mem_map]
    exact ⟨e, he, PerformanceData.averageTimesRow_columns e.1 e.2⟩
  · intro hne
    rw [PerformanceData.laneAverage_eq, if_neg hne]
  · intro hnil
    rw [hnil]
    decide
  · intro hnil
    rw [hnil]
    decide
  · intro hne hpos
    rw [PerformanceData.laneAverage_eq, if_neg hne, if_pos hpos]

/-- C10, amended, at the example of the specification: uncached samples of
100 ms and 200 ms and no cached sample give `150ms` and `unused`. -/
theorem getAverageTimes_columns_witness :
    ∃ c1 c2 : GoString,
      [Example.exampleCom, c1, c2] ∈
        ((PerformanceData.New.AddUncachedTime Example.pageURL Example.ms100
          5000).AddUncachedTime Example.pageURL Example.ms200 5000).GetAverageTimes ∧
      c1 = "150ms".toList ∧ c2 = "unused".toList := by
  obtain ⟨c1, c2, hmem, h1, _, h3, _⟩ :=
    (getAverageTimes_columns
      ((PerformanceData.New.AddUncachedTime Example.pageURL Example.ms100
        5000).AddUncachedTime Example.pageURL Example.ms200 5000)).2
      (Example.pageURL, { uncachedTimes := [Example.ms100, Example.ms200], cachedTimes := [] })
      (by decide)
  exact ⟨c1, c2, hmem, (h1 (by decide)).trans (by decide), h3 rfl⟩

/-! ## The header loop -/

namespace http

theorem values_add_self (h : Header) (key v : GoString) :
    Header.Values (Header.Add h key v) key = Header.Values h key ++ [v] := by
  simp [Header.Values, Header.Add, GoMap.get_set_self]

theorem values_add_other (h : Header) (key v k2 : GoString) (hne : key ≠ k2) :
    Header.Values (Header.Add h key v) k2 = Header.Values h k2 := by
  simp [Header.Values, Header.Add, GoMap.get_set_other _ _ _ _ hne]

theorem values_addAll_self (vs : List GoString) (h : Header) (key : GoString) :
    Header.Values (vs.foldl (fun acc v => Header.Add acc key v) h) key =
      Header.Values h key ++ vs := by
  induction vs generalizing h with
  | nil => simp
  | cons v rest ih => simp [List.foldl, ih, values_add_self]

theorem values_addAll_other (vs : List GoString) (h : Header) (key k2 : GoString)
    (hne : key ≠ k2) :
    Header.Values (vs.foldl (fun acc v => Header.Add acc key v) h) k2 = Header.Values h k2 := by
  induction vs generalizing h with
  | nil => simp
  | cons v rest ih => simp [List.foldl, ih, values_add_other _ _ _ _ hne]

end http

namespace Proxy

/-- After the header loop the writer holds, under every key, the values it
held before followed by the values of the copied header. -/
theorem values_copiedHeader (src : http.Header) (hwf : GoMap.WF src) (h : http.Header)
    (key : GoString) :
    http.Header.Values (copiedHeader src h) key =
      http.Header.Values h key ++ http.Header.Values src key := by
  induction src generalizing h with
  | nil => simp [copiedHeader, http.Header.Values, GoMap.get]
  | cons e rest ih =>
    obtain ⟨k1, vs1⟩ := e
    unfold GoMap.WF at hwf ih
    simp only [List.map_cons, List.nodup_cons] at hwf
    have step : copiedHeader ((k1, vs1) :: rest) h =
        copiedHeader rest (vs1.foldl (fun acc v => http.Header.Add acc k1 v) h) := rfl
    rw [step, ih hwf.2]
    by_cases hk : k1 = key
    · subst hk
      have hnone : GoMap.get rest k1 = none := GoMap.get_eq_none_of_not_mem rest k1 hwf.1
      have h1 : http.Header.Values rest k1 = [] := by simp [http.Header.Values, hnone]
      have h2 : http.Header.Values ((k1, vs1) :: rest) k1 = vs1 := by
        simp [http.Header.Values, GoMap.get]
      rw [http.values_addAll_self, h1, h2]
      simp
    · have h2 : http.Header.Values ((k1, vs1) :: rest) key = http.Header.Values rest key := by
        simp [http.Header.Values, GoMap.get, hk]
      rw [http.values_addAll_other _ _ _ _ hk, h2]

theorem copyHeaders_inner (vs : List GoString) (key : GoString) (w : http.ResponseWriter)
    (n : Int) :
    vs.foldl
        (fun (acc2 : http.ResponseWriter × Int) v =>
          ({ acc2.1 with header := http.Header.Add acc2.1.header key v },
            acc2.2 + ((v.length : Int) + (key.length : Int))))
        (w, n) =
      ({ w with header := vs.foldl (fun acc v => http.Header.Add acc key v) w.header },
        n + (vs.map (fun v => (v.length : Int) + (key.length : Int))).sum) := by
  induction vs generalizing w n with
  | nil => simp
  | cons v rest ih =>
    simp only [List.foldl, ih, List.map_cons, List.sum_cons]
    simp [add_assoc]

theorem copyHeaders_fold (src : http.Header) (w : http.ResponseWriter) (n : Int) :
    src.foldl
        (fun (acc : http.ResponseWriter × Int) kv =>
          kv.2.foldl
            (fun (acc2 : http.ResponseWriter × Int) v =>
              ({ acc2.1 with header := http.Header.Add acc2.1.header kv.1 v },
                acc2.2 + ((v.length : Int) + (kv.1.length : Int))))
            acc)
        (w, n) =
      ({ w with header := copiedHeader src w.header }, n + headerBytes src) := by
  induction src generalizing w n with
  | nil => simp [copiedHeader, headerBytes]
  | cons e rest ih =>
    simp only [List.foldl, copyHeaders_inner, ih]
    simp [copiedHeader, headerBytes, add_assoc]

/-- The header loop leaves everything of the writer but its header map as it
was, and computes `headerBytes`. -/
theorem copyHeaders_eq (src : http.Header) (w : http.ResponseWriter) :
    copyHeaders src w = ({ w with header := copiedHeader src w.header }, headerBytes src) := by
  unfold copyHeaders
  rw [copyHeaders_fold]
  simp

theorem headerBytes_nonneg (src : http.Header) : 0 ≤ headerBytes src := by
  unfold headerBytes
  apply List.sum_nonneg
  intro x hx
  simp only [List.mem_map] at hx
  obtain ⟨kv, _, rfl⟩ := hx
  apply List.sum_nonneg
  intro y hy
  simp only [List.mem_map] at hy
  obtain ⟨v, _, rfl⟩ := hy
  positivity

end Proxy

/-! ## The response writer -/

namespace http

theorem write_of_wroteHeader (env : Env) (w : ResponseWriter) (data : GoString)
    (hw : w.wroteHeader = true) :
    (w.Write env data).1.wroteHeader = true ∧ (w.Write env data).1.status = w.status ∧
    (w.Write env data).1.sentHeader = w.sentHeader ∧
    (w.Write env data).1.writes = w.writes + 1 ∧
    (w.Write env data).2 = env.clientWrite w.writes ∧
    (w.Write env data).1.body =
      (if env.clientWrite w.writes = none then w.body ++ data else w.body) := by
  unfold ResponseWriter.Write
  cases h : env.clientWrite w.writes <;> simp [hw, h]

theorem error_of_wroteHeader (env : Env) (w : ResponseWriter) (err : GoString) (code : Int)
    (hw : w.wroteHeader = true) :
    (Error env w err code).wroteHeader = true ∧ (Error env w err code).status = w.status ∧
    (Error env w err code).sentHeader = w.sentHeader := by
  unfold Error ResponseWriter.Write ResponseWriter.WriteHeader
  cases h : env.clientWrite w.writes <;> cases hp : w.panicked <;> simp [hw, h, hp]

end http

/-! ## The dispatch engine -/

namespace Proxy

/-- The blocked page: no call panics, the status sent is 404 whatever happens afterwards, no
effect is an outbound fetch or dial, and when the two writes succeed the body
begins with the line of `http.Error` followed by `blockedMessage`; nothing
follows unless the browser launch was tried and failed. -/
theorem serveBlockedSite_fresh (env : Env) (req : http.Request) :
    (serveBlockedSite env http.newResponseWriter req).1.panicked = false ∧
    (serveBlockedSite env http.newResponseWriter req).1.wroteHeader = true ∧
    (serveBlockedSite env http.newResponseWriter req).1.status = 404 ∧
    (∀ e ∈ (serveBlockedSite env http.newResponseWriter req).2, e.isOutbound = false) ∧
    (env.clientWrite 0 = none → env.clientWrite 1 = none →
      ∃ rest, (serveBlockedSite env http.newResponseWriter req).1.body =
        "This site has been blocked\n".toList ++ blockedMessage ++ rest) ∧
    (env.clientWrite 0 = none → env.clientWrite 1 = none →
      (strings.Contains (req.Header.Get userAgentKey) "curl".toList = true →
        env.browserOpen blockedMessage = none) →
      (serveBlockedSite env http.newResponseWriter req).1.body =
        "This site has been blocked\n".toList ++ blockedMessage) := by
  unfold serveBlockedSite
  cases h0 : env.clientWrite 0 <;> cases h1 : env.clientWrite 1 <;>
    cases h2 : env.clientWrite 2 <;>
    cases hcurl : strings.Contains (req.Header.Get userAgentKey) "curl".toList <;>
    cases hbr : env.browserOpen blockedMessage <;>
    simp [http.Error, http.ResponseWriter.Write, http.ResponseWriter.WriteHeader,
      http.validWriteHeaderCode, io.WriteString, http.newResponseWriter,
      http.StatusNotFound, http.StatusOK, http.StatusInternalServerError, h0, h1, h2,
      hcurl, hbr, Effect.isOutbound]

end Proxy

namespace Proxy

/-- A cache hit of a response with a status code `WriteHeader` accepts, served
on a fresh writer. -/
theorem handleCachedSite_fresh (env : Env) (req : http.Request) (resp : http.Response)
    (body : GoString) (hs : 100 ≤ resp.StatusCode ∧ resp.StatusCode ≤ 999) :
    (handleCachedSite env http.newResponseWriter req resp body).1.panicked = false ∧
    (handleCachedSite env http.newResponseWriter req resp body).1.status = resp.StatusCode ∧
    (handleCachedSite env http.newResponseWriter req resp body).1.sentHeader =
      copiedHeader resp.Header [] ∧
    (env.clientWrite 0 = none →
      (strings.Contains (req.Header.Get userAgentKey) "curl".toList = true →
        env.browserOpen body = none) →
      (handleCachedSite env http.newResponseWriter req resp body).1.body = body ∧
      (handleCachedSite env http.newResponseWriter req resp body).2.2 =
        (body.length : Int) + headerBytes resp.Header) ∧
    ((env.clientWrite 0 ≠ none ∨
        (strings.Contains (req.Header.Get userAgentKey) "curl".toList = true ∧
          env.browserOpen body ≠ none)) →
      (handleCachedSite env http.newResponseWriter req resp body).2.2 = -1) := by
  simp only [handleCachedSite, copyHeaders_eq]
  cases h0 : env.clientWrite 0 <;> cases h1 : env.clientWrite 1 <;>
    cases hcurl : strings.Contains (req.Header.Get userAgentKey) "curl".toList <;>
    cases hbr : env.browserOpen body <;>
    simp [http.Error, http.ResponseWriter.Write, http.ResponseWriter.WriteHeader,
      http.validWriteHeaderCode, io.WriteString, http.newResponseWriter, http.StatusOK,
      http.StatusInternalServerError, h0, h1, hcurl, hbr, hs]

/-- A cache hit makes no outbound fetch or dial, whatever the status code. -/
theorem handleCachedSite_effects (env : Env) (w : http.ResponseWriter) (req : http.Request)
    (resp : http.Response) (body : GoString) :
    ∀ e ∈ (handleCachedSite env w req resp body).2.1, e.isOutbound = false := by
  simp only [handleCachedSite]
  split
  · simp
  · split
    · simp
    · split
      · split <;> simp [Effect.isOutbound]
      · simp

/-- A cache hit of a response with a status code `WriteHeader` rejects, on a
fresh writer: the call panics before anything is sent. -/
theorem handleCachedSite_panics (env : Env) (req : http.Request) (resp : http.Response)
    (body : GoString) (hs : ¬ (100 ≤ resp.StatusCode ∧ resp.StatusCode ≤ 999)) :
    (handleCachedSite env http.newResponseWriter req resp body).1.panicked = true ∧
    (handleCachedSite env http.newResponseWriter req resp body).1.wroteHeader = false ∧
    (handleCachedSite env http.newResponseWriter req resp body).1.body = [] := by
  simp only [handleCachedSite, copyHeaders_eq]
  simp [http.ResponseWriter.WriteHeader, http.validWriteHeaderCode, http.newResponseWriter, hs]

theorem recordTime_cached (env : Env) (p : Proxy) (site : url.URL) (st : Time) (n : Int) :
    recordTime env p site st true n =
      if n > 0 then
        { p with
          PerformanceData := p.PerformanceData.AddCachedTime site (env.endTime - st) n }
      else p := by
  unfold recordTime time.Since
  by_cases h : n > 0 <;> simp [h]

theorem recordTime_uncached (env : Env) (p : Proxy) (site : url.URL) (st : Time) (n : Int) :
    recordTime env p site st false n =
      if n > 0 then
        { p with
          PerformanceData := p.PerformanceData.AddUncachedTime site (env.endTime - st) n }
      else p := by
  unfold recordTime time.Since
  by_cases h : n > 0 <;> simp [h]

end Proxy

/-- C1 as stated fails in its body: `example.com` is blocked, every call
succeeds, and the body the client receives for `http://example.com/` is not
the blocked page but the line `This site has been blocked` followed by the
blocked page, because `http.Error` writes its message before
`blockedMessage` is written.  (The `Content-Type` sent with it is the
`text/plain` of `http.Error`: the header is set to `text/html` after the
headers have gone out.) -/
theorem blocked_body_is_not_the_blocked_page :
    Example.blockingProxy.BlockedSites.IsBlocked Example.getPage.URL = true ∧
    Example.calmEnv.clientWrite 0 = none ∧ Example.calmEnv.clientWrite 1 = none ∧
    (Proxy.serve Example.calmEnv Example.blockingProxy Example.getPage).w.body ≠
      Proxy.blockedMessage ∧
    (Proxy.serve Example.calmEnv Example.blockingProxy Example.getPage).w.body =
      "This site has been blocked\n".toList ++ Proxy.blockedMessage ∧
    http.Header.Get
        (Proxy.serve Example.calmEnv Example.blockingProxy Example.getPage).w.sentHeader
        "Content-Type".toList = "text/plain; charset=utf-8".toList := by
  decide

/-- C1, amended: for every request whose URL the blocklist reports as
blocked, the handler runs to its end without a panic, sends status 404 and,
when the client connection accepts the writes, a body made of the text line
of `http.Error` followed by the blocked page
(and nothing else unless the browser launch was tried and failed); it leaves
the proxy state, and so the cache and the telemetry, exactly as it was;
none of its effects is an outbound fetch or dial; and the response and the
effects are the same whatever the cache and the telemetry hold, so the cache
is not consulted. -/
theorem blocked_request_gets_404_and_touches_nothing (env : Env) (p : Proxy)
    (req : http.Request) (hb : p.BlockedSites.IsBlocked req.URL = true) :
    (Proxy.serve env p req).w.panicked = false ∧
    (Proxy.serve env p req).w.wroteHeader = true ∧
    (Proxy.serve env p req).w.status = 404 ∧
    (env.clientWrite 0 = none → env.clientWrite 1 = none →
      ∃ rest, (Proxy.serve env p req).w.body =
        "This site has been blocked\n".toList ++ Proxy.blockedMessage ++ rest) ∧
    (env.clientWrite 0 = none → env.clientWrite 1 = none →
      (strings.Contains (req.Header.Get Proxy.userAgentKey) "curl".toList = true →
        env.browserOpen Proxy.blockedMessage = none) →
      (Proxy.serve env p req).w.body =
        "This site has been blocked\n".toList ++ Proxy.blockedMessage) ∧
    (Proxy.serve env p req).proxy = p ∧
    (Proxy.serve env p req).proxy.CachedSites = p.CachedSites ∧
    (Proxy.serve env p req).proxy.PerformanceData = p.PerformanceData ∧
    (∀ e ∈ (Proxy.serve env p req).effects, e.isOutbound = false) ∧
    (∀ (c : CachedSites) (perf : PerformanceData),
      (Proxy.serve env { p with CachedSites := c, PerformanceData := perf } req).w =
        (Proxy.serve env p req).w ∧
      (Proxy.serve env { p with CachedSites := c, PerformanceData := perf } req).effects =
        (Proxy.serve env p req).effects) := by
  have h := Proxy.serveBlockedSite_fresh env req
  have run : ∀ q : Proxy, q.BlockedSites = p.BlockedSites →
      Proxy.serve env q req =
        { proxy := q, w := (Proxy.serveBlockedSite env http.newResponseWriter req).1,
          effects := (Proxy.serveBlockedSite env http.newResponseWriter req).2 } := by
    intro q hq
    unfold Proxy.serve Proxy.requestHandler
    rw [hq, hb]
    simp
  rw [run p rfl]
  refine ⟨h.1, h.2.1, h.2.2.1, h.2.2.2.2.1, h.2.2.2.2.2, rfl, rfl, rfl, h.2.2.2.1, ?_⟩
  intro c perf
  rw [run { p with CachedSites := c, PerformanceData := perf } rfl]
  exact ⟨rfl, rfl⟩

/-- C1, amended, at a concrete request: `example.com` is blocked, the client accepts
the writes, and the request for `http://example.com/` gets 404 and the
blocked page while the stores stay as they were. -/
theorem blocked_request_gets_404_and_touches_nothing_witness :
    Example.blockingProxy.BlockedSites.IsBlocked Example.getPage.URL = true ∧
    (Proxy.serve Example.calmEnv Example.blockingProxy Example.getPage).w.status = 404 ∧
    (Proxy.serve Example.calmEnv Example.blockingProxy Example.getPage).w.body =
      "This site has been blocked\n".toList ++ Proxy.blockedMessage ∧
    (Proxy.serve Example.calmEnv Example.blockingProxy Example.getPage).proxy =
      Example.blockingProxy :=
  ⟨by decide,
    (blocked_request_gets_404_and_touches_nothing Example.calmEnv Example.blockingProxy
      Example.getPage (by decide)).2.2.1,
    (blocked_request_gets_404_and_touches_nothing Example.calmEnv Example.blockingProxy
      Example.getPage (by decide)).2.2.2.2.1 (by decide) (by decide) (by decide),
    (blocked_request_gets_404_and_touches_nothing Example.calmEnv Example.blockingProxy
      Example.getPage (by decide)).2.2.2.2.2.1⟩

/-- C4 as stated fails: the cache holds an entry for the URL (a `204`
response without headers and with an empty body), the request is not
blocked and is served from the cache with every call succeeding, and no
sample is appended to the cached lane: the telemetry has no entry at all
afterwards, because the content length computed for the hit is 0. -/
theorem cache_hit_of_empty_response_records_no_sample :
    Example.warmEmptyProxy.BlockedSites.IsBlocked Example.getPage.URL = false ∧
    Example.warmEmptyProxy.CachedSites.GetFromCache Example.getPage.URL =
      some (Example.emptyResponse, []) ∧
    (Proxy.serve Example.calmEnv Example.warmEmptyProxy Example.getPage).w.status = 204 ∧
    (Proxy.serve Example.calmEnv Example.warmEmptyProxy
      Example.getPage).proxy.PerformanceData.cachedLane Example.getPage.URL = [] ∧
    (Proxy.serve Example.calmEnv Example.warmEmptyProxy
      Example.getPage).proxy.PerformanceData = PerformanceData.New := by
  decide

/-- C4, amended: for every request that is not blocked and whose URL has a
cache entry, the handler makes no outbound fetch or dial, leaves the cache
and every uncached lane as they were, and touches no cached lane but that
of the request URL.  When the status code of the entry is one `WriteHeader`
accepts (100 to 999, as it is for every entry the proxy itself has cached),
the handler runs to its end without a panic and sends the cached status and
the cached headers.  When moreover the write of the body succeeds and the
browser launch, if it is triggered, succeeds, the cached body is the body
sent, and exactly one sample, the elapsed time, is appended to the cached
lane of the URL if the content length (body bytes plus header bytes) is
positive, none if it is zero.  When the write or the browser launch fails no
sample is recorded. -/
theorem cache_hit_served_from_cache (env : Env) (p : Proxy) (req : http.Request)
    (resp : http.Response) (body : GoString)
    (hb : p.BlockedSites.IsBlocked req.URL = false)
    (hc : p.CachedSites.GetFromCache req.URL = some (resp, body)) :
    (Proxy.serve env p req).proxy.CachedSites = p.CachedSites ∧
    (Proxy.serve env p req).proxy.BlockedSites = p.BlockedSites ∧
    (∀ e ∈ (Proxy.serve env p req).effects, e.isOutbound = false) ∧
    (∀ site, (Proxy.serve env p req).proxy.PerformanceData.uncachedLane site =
      p.PerformanceData.uncachedLane site) ∧
    (∀ site, site ≠ req.URL →
      (Proxy.serve env p req).proxy.PerformanceData.cachedLane site =
        p.PerformanceData.cachedLane site) ∧
    (100 ≤ resp.StatusCode ∧ resp.StatusCode ≤ 999 →
      (Proxy.serve env p req).w.panicked = false ∧
      (Proxy.serve env p req).w.status = resp.StatusCode ∧
      (Proxy.serve env p req).w.sentHeader = Proxy.copiedHeader resp.Header [] ∧
      (GoMap.WF resp.Header → ∀ key,
        http.Header.Values (Proxy.serve env p req).w.sentHeader key =
          http.Header.Values resp.Header key) ∧
      (env.clientWrite 0 = none →
        (strings.Contains (req.Header.Get Proxy.userAgentKey) "curl".toList = true →
          env.browserOpen body = none) →
        (Proxy.serve env p req).w.body = body ∧
        (0 < (body.length : Int) + Proxy.headerBytes resp.Header →
          (Proxy.serve env p req).proxy.PerformanceData.cachedLane req.URL =
            p.PerformanceData.cachedLane req.URL ++ [env.endTime - env.startTime]) ∧
        ((body.length : Int) + Proxy.headerBytes resp.Header = 0 →
          (Proxy.serve env p req).proxy.PerformanceData = p.PerformanceData)) ∧
      ((env.clientWrite 0 ≠ none ∨
          (strings.Contains (req.Header.Get Proxy.userAgentKey) "curl".toList = true ∧
            env.browserOpen body ≠ none)) →
        (Proxy.serve env p req).proxy.PerformanceData = p.PerformanceData)) := by
  have run : Proxy.serve env p req =
      if (Proxy.handleCachedSite env http.newResponseWriter req resp body).1.panicked = true
      then
        { proxy := p,
          w := (Proxy.handleCachedSite env http.newResponseWriter req resp body).1,
          effects := (Proxy.handleCachedSite env http.newResponseWriter req resp body).2.1 }
      else
        { proxy := Proxy.recordTime env p req.URL env.startTime true
            (Proxy.handleCachedSite env http.newResponseWriter req resp body).2.2,
          w := (Proxy.handleCachedSite env http.newResponseWriter req resp body).1,
          effects :=
            (Proxy.handleCachedSite env http.newResponseWriter req resp body).2.1 } := by
    unfold Proxy.serve Proxy.requestHandler
    simp [hb, hc]
  have heff := Proxy.handleCachedSite_effects env http.newResponseWriter req resp body
  have hun : ∀ site, (Proxy.recordTime env p req.URL env.startTime true
      (Proxy.handleCachedSite env http.newResponseWriter req resp
        body).2.2).PerformanceData.uncachedLane site = p.PerformanceData.uncachedLane site := by
    intro site
    rw [Proxy.recordTime_cached]
    split
    · by_cases hs : req.URL = site
      · subst hs
        exact (PerformanceData.cachedLane_addCached _ _ _ _).2
      · exact (PerformanceData.lanes_addCached_other _ _ _ _ _ hs).1
    · rfl
  have hca : ∀ site, site ≠ req.URL → (Proxy.recordTime env p req.URL env.startTime true
      (Proxy.handleCachedSite env http.newResponseWriter req resp
        body).2.2).PerformanceData.cachedLane site = p.PerformanceData.cachedLane site := by
    intro site hs
    rw [Proxy.recordTime_cached]
    split
    · exact (PerformanceData.lanes_addCached_other _ _ _ _ _ (Ne.symm hs)).2
    · rfl
  have hst : (Proxy.recordTime env p req.URL env.startTime true
      (Proxy.handleCachedSite env http.newResponseWriter req resp
        body).2.2).CachedSites = p.CachedSites ∧
      (Proxy.recordTime env p req.URL env.startTime true
        (Proxy.handleCachedSite env http.newResponseWriter req resp
          body).2.2).BlockedSites = p.BlockedSites := by
    rw [Proxy.recordTime_cached]
    split <;> exact ⟨rfl, rfl⟩
  refine ⟨?_, ?_, ?_, ?_, ?_, ?_⟩
  · rw [run]; split
    · rfl
    · exact hst.1
  · rw [run]; split
    · rfl
    · exact hst.2
  · rw [run]; split <;> exact heff
  · intro site
    rw [run]; split
    · rfl
    · exact hun site
  · intro site hs
    rw [run]; split
    · rfl
    · exact hca site hs
  · intro hvalid
    have h := Proxy.handleCachedSite_fresh env req resp body hvalid
    rw [run, if_neg (by simp [h.1]), Proxy.recordTime_cached]
    refine ⟨h.1, h.2.1, h.2.2.1, ?_, ?_, ?_⟩
    · intro hwf key
      show http.Header.Values
        (Proxy.handleCachedSite env http.newResponseWriter req resp body).1.sentHeader key = _
      rw [h.2.2.1, Proxy.values_copiedHeader _ hwf]
      simp [http.Header.Values, GoMap.get]
    · intro hw hn
      obtain ⟨hbody, hlen⟩ := h.2.2.2.1 hw hn
      refine ⟨hbody, ?_, ?_⟩
      · intro hpos
        rw [hlen, if_pos hpos]
        exact (PerformanceData.cachedLane_addCached _ _ _ _).1
      · intro hzero
        rw [hlen, hzero]
        simp
    · intro hfail
      rw [h.2.2.2.2 hfail]
      simp

/-- C4, amended, at a concrete hit: the cache holds `okResponse` with
`pageBody`, every call succeeds, and the handler sends status 200 and the
cached body and appends the elapsed 150 ms to the cached lane. -/
theorem cache_hit_served_from_cache_witness :
    Example.warmProxy.BlockedSites.IsBlocked Example.getPage.URL = false ∧
    Example.warmProxy.CachedSites.GetFromCache Example.getPage.URL =
      some (Example.okResponse, Example.pageBody) ∧
    (Proxy.serve Example.calmEnv Example.warmProxy Example.getPage).w.status = 200 ∧
    (Proxy.serve Example.calmEnv Example.warmProxy Example.getPage).w.body =
      Example.pageBody ∧
    (Proxy.serve Example.calmEnv Example.warmProxy
      Example.getPage).proxy.PerformanceData.cachedLane Example.getPage.URL = [150000000] :=
  ⟨by decide, by decide,
    ((cache_hit_served_from_cache Example.calmEnv Example.warmProxy Example.getPage
      Example.okResponse Example.pageBody (by decide) (by decide)).2.2.2.2.2
      (by decide)).2.1,
    (((cache_hit_served_from_cache Example.calmEnv Example.warmProxy Example.getPage
      Example.okResponse Example.pageBody (by decide) (by decide)).2.2.2.2.2
      (by decide)).2.2.2.2.1 (by decide) (by decide)).1,
    (((cache_hit_served_from_cache Example.calmEnv Example.warmProxy Example.getPage
      Example.okResponse Example.pageBody (by decide) (by decide)).2.2.2.2.2
      (by decide)).2.2.2.2.1 (by decide) (by decide)).2.1 (by decide)⟩

namespace GoMap

variable {κ ν : Type} [DecidableEq κ]

theorem filter_key_of_get_none (m : GoMap κ ν) (k : κ) (h : GoMap.get m k = none) :
    m.filter (fun e => decide (e.1 = k)) = [] := by
  induction m with
  | nil => rfl
  | cons e rest ih =>
    obtain ⟨k1, v1⟩ := e
    by_cases hk : k1 = k
    · simp [GoMap.get, hk] at h
    · simp only [GoMap.get, hk, if_false] at h
      simp [List.filter, hk, ih h]

theorem filter_key_set_of_get_none (m : GoMap κ ν) (k : κ) (v : ν)
    (h : GoMap.get m k = none) :
    (GoMap.set m k v).filter (fun e => decide (e.1 = k)) = [(k, v)] := by
  induction m with
  | nil => simp [GoMap.set]
  | cons e rest ih =>
    obtain ⟨k1, v1⟩ := e
    by_cases hk : k1 = k
    · simp [GoMap.get, hk] at h
    · simp only [GoMap.get, hk, if_false] at h
      simp [GoMap.set, List.filter, hk, ih h]

end GoMap

namespace Proxy

/-- A successful fetch with a status code `WriteHeader` accepts, relayed on a
fresh writer. -/
theorem handleHTTP_fetched (env : Env) (p : Proxy) (req : http.Request)
    (resp : http.Response) (body : GoString)
    (hf : env.clientDo req = FetchResult.fetched resp body)
    (hs : 100 ≤ resp.StatusCode ∧ resp.StatusCode ≤ 999) :
    (handleHTTP env p http.newResponseWriter req).2.1.panicked = false ∧
    (handleHTTP env p http.newResponseWriter req).1 =
      { p with CachedSites := p.CachedSites.AddToCache env.cachedAt req.URL resp body } ∧
    (handleHTTP env p http.newResponseWriter req).2.2.2 =
      (body.length : Int) + headerBytes resp.Header ∧
    (handleHTTP env p http.newResponseWriter req).2.2.1.filter Effect.isOutbound =
      [Effect.clientDo req] ∧
    (handleHTTP env p http.newResponseWriter req).2.1.status = resp.StatusCode ∧
    (handleHTTP env p http.newResponseWriter req).2.1.sentHeader =
      copiedHeader resp.Header [] ∧
    (env.clientWrite 0 = none →
      (strings.Contains (req.Header.Get userAgentKey) "curl".toList = true →
        env.browserOpen body = none) →
      (handleHTTP env p http.newResponseWriter req).2.1.body = body) := by
  simp only [handleHTTP, hf, copyHeaders_eq]
  cases h0 : env.clientWrite 0 <;> cases h1 : env.clientWrite 1 <;>
    cases h2 : env.clientWrite 2 <;>
    cases hcurl : strings.Contains (req.Header.Get userAgentKey) "curl".toList <;>
    cases hbr : env.browserOpen body <;>
    simp [http.Error, http.ResponseWriter.Write, http.ResponseWriter.WriteHeader,
      http.validWriteHeaderCode, io.WriteString, http.newResponseWriter, http.StatusOK,
      http.StatusInternalServerError, h0, h1, h2, hcurl, hbr, hs, Effect.isOutbound]

/-- A successful fetch with a status code `WriteHeader` rejects, relayed on a
fresh writer: the call panics before anything is sent or cached. -/
theorem handleHTTP_panics (env : Env) (p : Proxy) (req : http.Request)
    (resp : http.Response) (body : GoString)
    (hf : env.clientDo req = FetchResult.fetched resp body)
    (hs : ¬ (100 ≤ resp.StatusCode ∧ resp.StatusCode ≤ 999)) :
    (handleHTTP env p http.newResponseWriter req).2.1.panicked = true ∧
    (handleHTTP env p http.newResponseWriter req).1 = p ∧
    (handleHTTP env p http.newResponseWriter req).2.1.wroteHeader = false ∧
    (handleHTTP env p http.newResponseWriter req).2.1.body = [] := by
  simp only [handleHTTP, hf, copyHeaders_eq]
  simp [http.ResponseWriter.WriteHeader, http.validWriteHeaderCode, http.newResponseWriter, hs]

/-- A fetch that fails, in the round trip or in the body read, relayed on a
fresh writer: status 503, the stores untouched, -1 returned. -/
theorem handleHTTP_failed (env : Env) (p : Proxy) (req : http.Request)
    (hf : (∃ err, env.clientDo req = FetchResult.doFailed err) ∨
      (∃ resp err, env.clientDo req = FetchResult.readFailed resp err)) :
    (handleHTTP env p http.newResponseWriter req).2.1.panicked = false ∧
    (handleHTTP env p http.newResponseWriter req).1 = p ∧
    (handleHTTP env p http.newResponseWriter req).2.2.2 = -1 ∧
    (handleHTTP env p http.newResponseWriter req).2.1.status = 503 := by
  rcases hf with ⟨err, hf⟩ | ⟨resp, err, hf⟩ <;>
    cases h0 : env.clientWrite 0 <;>
    simp [handleHTTP, hf, http.Error, http.ResponseWriter.Write,
      http.ResponseWriter.WriteHeader, http.validWriteHeaderCode, http.newResponseWriter,
      http.StatusOK, http.StatusServiceUnavailable, h0]

/-- The handler on a request that is neither blocked, nor cached, nor a
`CONNECT`: `handleHTTP` on the request with `RequestURI` cleared, then the
telemetry step unless `handleHTTP` has panicked. -/
theorem serve_forward (env : Env) (p : Proxy) (req : http.Request)
    (hb : p.BlockedSites.IsBlocked req.URL = false)
    (hc : p.CachedSites.GetFromCache req.URL = none)
    (hm : req.Method ≠ http.MethodConnect) :
    serve env p req =
      if (handleHTTP env p http.newResponseWriter
          { req with RequestURI := [] }).2.1.panicked = true then
        { proxy := (handleHTTP env p http.newResponseWriter { req with RequestURI := [] }).1,
          w := (handleHTTP env p http.newResponseWriter { req with RequestURI := [] }).2.1,
          effects :=
            (handleHTTP env p http.newResponseWriter { req with RequestURI := [] }).2.2.1 }
      else
        { proxy := recordTime env
            (handleHTTP env p http.newResponseWriter { req with RequestURI := [] }).1
            req.URL env.startTime false
            (handleHTTP env p http.newResponseWriter { req with RequestURI := [] }).2.2.2,
          w := (handleHTTP env p http.newResponseWriter { req with RequestURI := [] }).2.1,
          effects :=
            (handleHTTP env p http.newResponseWriter
              { req with RequestURI := [] }).2.2.1 } := by
  unfold serve requestHandler
  simp only [hb, hc, hm, Bool.false_eq_true, if_false]

end Proxy

/-- C3 as stated fails: the request is not blocked, not cached and not a
`CONNECT`, the origin answers `204` without headers and with an empty body,
every call succeeds, the response is stored in the cache, and no sample is
appended to the uncached lane: the telemetry has no entry at all afterwards,
because the content length computed for the fetch is 0. -/
theorem fetch_of_empty_response_records_no_sample :
    Proxy.New.BlockedSites.IsBlocked Example.getPage.URL = false ∧
    Proxy.New.CachedSites.GetFromCache Example.getPage.URL = none ∧
    Example.getPage.Method ≠ http.MethodConnect ∧
    (Proxy.serve Example.emptyReplyEnv Proxy.New
      Example.getPage).proxy.CachedSites.GetFromCache Example.getPage.URL =
        some (Example.emptyResponse, []) ∧
    (Proxy.serve Example.emptyReplyEnv Proxy.New
      Example.getPage).proxy.PerformanceData.uncachedLane Example.getPage.URL = [] ∧
    (Proxy.serve Example.emptyReplyEnv Proxy.New Example.getPage).proxy.PerformanceData =
      PerformanceData.New := by
  decide

/-- C3, amended: for every request that is not blocked, not in the cache and
not a `CONNECT`, and whose outbound fetch and body read succeed with a
status code `WriteHeader` accepts (100 to 999), the handler runs to its end
without a panic and makes exactly one outbound call, the fetch; afterwards
the cache holds
exactly one entry for the request URL, with the fetched status, headers and
body, and its other entries are as before; the status and headers sent are
the fetched ones; no cached lane changes.  When the content length (body
bytes plus header bytes) is zero no sample is recorded.  When it is positive,
the write of the body succeeds and the browser launch, if it is triggered,
succeeds, exactly one sample, the elapsed time, is appended to the uncached
lane of the URL. -/
theorem forwarded_fetch_cached_and_recorded (env : Env) (p : Proxy) (req : http.Request)
    (resp : http.Response) (body : GoString)
    (hb : p.BlockedSites.IsBlocked req.URL = false)
    (hc : p.CachedSites.GetFromCache req.URL = none)
    (hm : req.Method ≠ http.MethodConnect)
    (hf : env.clientDo { req with RequestURI := [] } = FetchResult.fetched resp body)
    (hs : 100 ≤ resp.StatusCode ∧ resp.StatusCode ≤ 999) :
    (Proxy.serve env p req).w.panicked = false ∧
    (Proxy.serve env p req).proxy.CachedSites.GetFromCache req.URL = some (resp, body) ∧
    (Proxy.serve env p req).proxy.CachedSites.cache.filter (fun e => decide (e.1 = req.URL)) =
      [(req.URL, { resp := resp, respBody := body, cachedAt := env.cachedAt })] ∧
    (∀ k, k ≠ req.URL →
      GoMap.get (Proxy.serve env p req).proxy.CachedSites.cache k =
        GoMap.get p.CachedSites.cache k) ∧
    (Proxy.serve env p req).proxy.BlockedSites = p.BlockedSites ∧
    (Proxy.serve env p req).effects.filter Effect.isOutbound =
      [Effect.clientDo { req with RequestURI := [] }] ∧
    (Proxy.serve env p req).w.status = resp.StatusCode ∧
    (Proxy.serve env p req).w.sentHeader = Proxy.copiedHeader resp.Header [] ∧
    (∀ site, (Proxy.serve env p req).proxy.PerformanceData.cachedLane site =
      p.PerformanceData.cachedLane site) ∧
    ((body.length : Int) + Proxy.headerBytes resp.Header = 0 →
      (Proxy.serve env p req).proxy.PerformanceData = p.PerformanceData) ∧
    (0 < (body.length : Int) + Proxy.headerBytes resp.Header →
      env.clientWrite 0 = none →
      (strings.Contains (req.Header.Get Proxy.userAgentKey) "curl".toList = true →
        env.browserOpen body = none) →
      (Proxy.serve env p req).w.body = body ∧
      (Proxy.serve env p req).proxy.PerformanceData.uncachedLane req.URL =
        p.PerformanceData.uncachedLane req.URL ++ [env.endTime - env.startTime]) := by
  have h0 := Proxy.handleHTTP_fetched env p { req with RequestURI := [] } resp body hf hs
  have h := h0.2
  have hnone : GoMap.get p.CachedSites.cache req.URL = none := by
    unfold CachedSites.GetFromCache at hc
    cases hg : GoMap.get p.CachedSites.cache req.URL with
    | none => rfl
    | some v => simp [hg] at hc
  rw [Proxy.serve_forward env p req hb hc hm, if_neg (by simp [h0.1]),
    Proxy.recordTime_uncached, h.1, h.2.1]
  refine ⟨h0.1, ?_, ?_, ?_, ?_, h.2.2.1, h.2.2.2.1, h.2.2.2.2.1, ?_, ?_, ?_⟩
  · split <;> exact CachedSites.get_after_add _ _ _ _ _
  · split <;>
      exact GoMap.filter_key_set_of_get_none _ _ _ hnone
  · intro k hk
    split <;>
      exact GoMap.get_set_other _ _ _ _ (Ne.symm hk)
  · split <;> rfl
  · intro site
    split
    · by_cases hs : req.URL = site
      · subst hs
        exact (PerformanceData.uncachedLane_addUncached _ _ _ _).2
      · exact (PerformanceData.lanes_addUncached_other _ _ _ _ _ hs).2
    · rfl
  · intro hzero
    rw [hzero]
    simp
  · intro hpos hw hn
    refine ⟨h.2.2.2.2.2 hw hn, ?_⟩
    rw [if_pos hpos]
    exact (PerformanceData.uncachedLane_addUncached _ _ _ _).1

/-- C3, amended, at a concrete request: the origin answers `okResponse` with
`pageBody`, every call succeeds, and afterwards the cache returns that
response and the uncached lane holds the elapsed 150 ms. -/
theorem forwarded_fetch_cached_and_recorded_witness :
    Proxy.New.BlockedSites.IsBlocked Example.getPage.URL = false ∧
    Proxy.New.CachedSites.GetFromCache Example.getPage.URL = none ∧
    (Proxy.serve Example.calmEnv Proxy.New
      Example.getPage).proxy.CachedSites.GetFromCache Example.getPage.URL =
        some (Example.okResponse, Example.pageBody) ∧
    (Proxy.serve Example.calmEnv Proxy.New
      Example.getPage).proxy.PerformanceData.uncachedLane Example.getPage.URL =
        [150000000] :=
  ⟨by decide, by decide,
    (forwarded_fetch_cached_and_recorded Example.calmEnv Proxy.New Example.getPage
      Example.okResponse Example.pageBody (by decide) (by decide) (by decide) rfl
      (by decide)).2.1,
    ((forwarded_fetch_cached_and_recorded Example.calmEnv Proxy.New Example.getPage
      Example.okResponse Example.pageBody (by decide) (by decide) (by decide) rfl
      (by decide)).2.2.2.2.2.2.2.2.2.2 (by decide) (by decide) (by decide)).2⟩

/-- When the outbound fetch or the body read fails, the handler answers 503 and leaves the whole proxy state, and so
the telemetry and the cache, as it was. -/
theorem failed_fetch_records_nothing (env : Env) (p : Proxy) (req : http.Request)
    (hb : p.BlockedSites.IsBlocked req.URL = false)
    (hc : p.CachedSites.GetFromCache req.URL = none)
    (hm : req.Method ≠ http.MethodConnect)
    (hf : (∃ err, env.clientDo { req with RequestURI := [] } = FetchResult.doFailed err) ∨
      (∃ resp err,
        env.clientDo { req with RequestURI := [] } = FetchResult.readFailed resp err)) :
    (Proxy.serve env p req).proxy = p ∧ (Proxy.serve env p req).w.status = 503 := by
  have h := Proxy.handleHTTP_failed env p { req with RequestURI := [] } hf
  rw [Proxy.serve_forward env p req hb hc hm, if_neg (by simp [h.1]),
    Proxy.recordTime_uncached, h.2.1, h.2.2.1]
  exact ⟨by simp, h.2.2.2⟩

/-- When the fetch succeeds with a status code `WriteHeader` rejects, the
handler panics in `w.WriteHeader(resp.StatusCode)`: nothing has been sent,
nothing is cached and no sample is recorded. -/
theorem fetched_invalid_status_panics (env : Env) (p : Proxy) (req : http.Request)
    (resp : http.Response) (body : GoString)
    (hb : p.BlockedSites.IsBlocked req.URL = false)
    (hc : p.CachedSites.GetFromCache req.URL = none)
    (hm : req.Method ≠ http.MethodConnect)
    (hf : env.clientDo { req with RequestURI := [] } = FetchResult.fetched resp body)
    (hs : ¬ (100 ≤ resp.StatusCode ∧ resp.StatusCode ≤ 999)) :
    (Proxy.serve env p req).w.panicked = true ∧ (Proxy.serve env p req).proxy = p ∧
    (Proxy.serve env p req).w.wroteHeader = false ∧ (Proxy.serve env p req).w.body = [] := by
  have h := Proxy.handleHTTP_panics env p { req with RequestURI := [] } resp body hf hs
  rw [Proxy.serve_forward env p req hb hc hm, if_pos h.1]
  exact ⟨h.1, h.2.1, h.2.2.1, h.2.2.2⟩

/-- The origin answers with status 99: the handler panics and the stores are
as before. -/
theorem fetched_status_99_panics :
    (Proxy.serve Example.status99Env Proxy.New Example.getPage).w.panicked = true ∧
    (Proxy.serve Example.status99Env Proxy.New Example.getPage).proxy = Proxy.New := by
  decide

/-- C9 (evaluation of the code where it departs from the claim): the request
is not blocked, not cached and not a `CONNECT`, the fetch succeeds, and the
write of the body to the client fails (nothing reaches the client); the
handler still appends the elapsed 150 ms to the uncached lane, because
`handleHTTP` returns the content length after a failed write, where
`handleCachedSite` returns -1. -/
theorem client_write_failure_still_records_sample :
    Proxy.New.BlockedSites.IsBlocked Example.getPage.URL = false ∧
    Proxy.New.CachedSites.GetFromCache Example.getPage.URL = none ∧
    Example.getPage.Method ≠ http.MethodConnect ∧
    Example.brokenClientEnv.clientWrite 0 = some "broken pipe".toList ∧
    (Proxy.serve Example.brokenClientEnv Proxy.New Example.getPage).w.body = [] ∧
    Proxy.New.PerformanceData.uncachedLane Example.getPage.URL = [] ∧
    (Proxy.serve Example.brokenClientEnv Proxy.New
      Example.getPage).proxy.PerformanceData.uncachedLane Example.getPage.URL =
        [150000000] ∧
    (Proxy.serve Example.brokenClientEnv Example.warmProxy
      Example.getPage).proxy.PerformanceData = Example.warmProxy.PerformanceData := by
  decide

/-! ## Where `IsBlocked` and the normalization of the specification agree -/

namespace strings

theorem two_le_length_split (h : GoString) (sep : Char) (hm : sep ∈ h) :
    ∃ (P : List GoString) (a c : GoString), Split h sep = P ++ [a, c] := by
  obtain ⟨s, t, rfl⟩ := List.append_of_mem hm
  rw [split_append_sep]
  have ht := split_ne_nil t sep
  have hs := split_ne_nil s sep
  obtain ⟨Q, c, hQ⟩ : ∃ Q c, Split t sep = Q ++ [c] :=
    ⟨(Split t sep).dropLast, (Split t sep).getLast ht, (List.dropLast_append_getLast ht).symm⟩
  obtain ⟨R, b, hR⟩ : ∃ R b, Split s sep = R ++ [b] :=
    ⟨(Split s sep).dropLast, (Split s sep).getLast hs, (List.dropLast_append_getLast hs).symm⟩
  rw [hQ, hR]
  cases Q using List.reverseRecOn with
  | nil => exact ⟨R, b, c, by simp⟩
  | append_singleton Q2 a => exact ⟨R ++ [b] ++ Q2, a, c, by simp⟩

end strings

namespace Spec

theorem lastTwoLabels_eq (h : GoString) :
    lastTwoLabels h =
      if '.' ∈ h then
        (strings.Split h '.').getD ((strings.Split h '.').length - 2) [] ++ ['.'] ++
          (strings.Split h '.').getD ((strings.Split h '.').length - 1) []
      else h := by
  unfold lastTwoLabels
  by_cases hd : '.' ∈ h
  · obtain ⟨P, a, c, hP⟩ := strings.two_le_length_split h '.' hd
    have e1 : (P ++ [a, c]).length - 2 = P.length := by simp
    have e2 : (P ++ [a, c]).length - 1 = P.length + 1 := by simp
    rw [if_pos hd, if_pos hd, hP, e1, e2, (BlockedSites.getD_append_two P a c).1,
      (BlockedSites.getD_append_two P a c).2]
    simp
  · rw [if_neg hd, if_neg hd]

theorem stripTrailingPort_of_no_colon (h : GoString) (hc : ':' ∉ h) :
    stripTrailingPort h = h := by
  unfold stripTrailingPort
  simp [hc]

theorem stripTrailingPort_of_port (h port : GoString)
    (hp : port.all Char.isDigit = true) :
    stripTrailingPort (h ++ ':' :: port) = h := by
  have hnc : ∀ x ∈ port.reverse, (x != ':') = true := by
    intro x hx
    have hx2 : x ∈ port := List.mem_reverse.1 hx
    have hd : x.isDigit = true := (List.all_eq_true.1 hp) x hx2
    rw [bne_iff_ne]
    intro hcol
    rw [hcol] at hd
    exact absurd hd (by decide)
  have htw : ((h ++ ':' :: port).reverse.takeWhile (fun c => c != ':')) = port.reverse := by
    have hrev : (h ++ ':' :: port).reverse = port.reverse ++ ':' :: h.reverse := by simp
    rw [hrev, List.takeWhile_append_of_pos hnc]
    simp [List.takeWhile]
  unfold stripTrailingPort
  simp only [htw, List.reverse_reverse, hp]
  simp

end Spec

/-- For a URL host without a colon, and for a host followed by one colon and
a decimal port, `IsBlocked` looks up the host the specification's
normalization yields: the two differ only on hosts with further colons. -/
theorem lookupHost_eq_normalize_of_one_colon (h port : GoString) (hc : ':' ∉ h)
    (hp : port.all Char.isDigit = true) :
    BlockedSites.lookupHost h = Spec.normalize h ∧
    BlockedSites.lookupHost (h ++ ':' :: port) = Spec.normalize (h ++ ':' :: port) := by
  have h1 : BlockedSites.lookupHost h = Spec.normalize h := by
    unfold Spec.normalize
    rw [Spec.stripTrailingPort_of_no_colon h hc, Spec.lastTwoLabels_eq,
      BlockedSites.lookupHost_of_no_colon h hc]
  refine ⟨h1, ?_⟩
  rw [BlockedSites.lookupHost_strip_port h port hc, h1]
  unfold Spec.normalize
  rw [Spec.stripTrailingPort_of_port h port hp, Spec.stripTrailingPort_of_no_colon h hc]

/-! ## Bandwidth samples -/

theorem time.second_milliseconds : (time.Second.Milliseconds : Int) = 1000 := by decide

namespace PerformanceData

theorem bandwidthLanes_addUncached (p : PerformanceData) (site : url.URL) (d : Duration)
    (n : Int) :
    (p.AddUncachedTime site d n).uncachedBandwidthLane site =
      p.uncachedBandwidthLane site ++ [bandwidthSample d n] ∧
    (p.AddUncachedTime site d n).cachedBandwidthLane site = p.cachedBandwidthLane site := by
  unfold AddUncachedTime uncachedBandwidthLane cachedBandwidthLane
  cases h : GoMap.get p.bandwidths site <;> simp [GoMap.get_set_self]

theorem bandwidthLanes_addCached (p : PerformanceData) (site : url.URL) (d : Duration)
    (n : Int) :
    (p.AddCachedTime site d n).cachedBandwidthLane site =
      p.cachedBandwidthLane site ++ [bandwidthSample d n] ∧
    (p.AddCachedTime site d n).uncachedBandwidthLane site = p.uncachedBandwidthLane site := by
  unfold AddCachedTime uncachedBandwidthLane cachedBandwidthLane
  cases h : GoMap.get p.bandwidths site <;> simp [GoMap.get_set_self]

theorem bandwidthLanes_other (p : PerformanceData) (site other : url.URL) (d : Duration)
    (n : Int) (hne : site ≠ other) :
    (p.AddUncachedTime site d n).uncachedBandwidthLane other = p.uncachedBandwidthLane other ∧
    (p.AddUncachedTime site d n).cachedBandwidthLane other = p.cachedBandwidthLane other ∧
    (p.AddCachedTime site d n).uncachedBandwidthLane other = p.uncachedBandwidthLane other ∧
    (p.AddCachedTime site d n).cachedBandwidthLane other = p.cachedBandwidthLane other := by
  unfold AddUncachedTime AddCachedTime uncachedBandwidthLane cachedBandwidthLane
  cases h : GoMap.get p.bandwidths site <;> simp [GoMap.get_set_other _ _ _ _ hne]

/-- The sample of an elapsed time of at least one millisecond has a nonzero
divisor and stands for whole kilobytes over whole milliseconds in seconds. -/
theorem value_of_millisecond (d : Duration) (n : Int) (hd : 1000000 ≤ d) :
    (bandwidthSample d n).value =
      some (((Int.tdiv n 1000 : Int) : ℚ) / (((Int.tdiv d 1000000 : Int) : ℚ) / 1000)) := by
  have hpos : ∀ x : Int, 1000000 ≤ x → Int.tdiv x 1000000 ≠ 0 := by
    intro x hx
    rw [Int.tdiv_eq_ediv (by omega) (by omega)]
    omega
  unfold BandwidthSample.value bandwidthSample Duration.Milliseconds
  rw [if_neg (hpos d hd)]
  have hs : ((Int.tdiv time.Second 1000000 : Int) : ℚ) = 1000 := by
    have := time.second_milliseconds
    unfold Duration.Milliseconds at this
    rw [this]
    norm_num
  rw [hs]

/-- The sample of a non-negative elapsed time below one millisecond has the
divisor 0. -/
theorem value_of_sub_millisecond (d : Duration) (n : Int) (h0 : 0 ≤ d) (hd : d < 1000000) :
    (bandwidthSample d n).millis = 0 ∧ (bandwidthSample d n).value = none := by
  have hz : ∀ x : Int, 0 ≤ x → x < 1000000 → Int.tdiv x 1000000 = 0 := by
    intro x hx hlt
    exact Int.tdiv_eq_zero_of_lt hx hlt
  unfold BandwidthSample.value bandwidthSample Duration.Milliseconds
  simp [hz d h0 hd]

end PerformanceData

/-- C11 as stated fails: for the positive elapsed time of half a millisecond
and the positive content length of 5000 bytes, the sample `AddUncachedTime`
and `AddCachedTime` append is 5 kB over 0 whole milliseconds, a division by
zero and no finite number, while the content length in kB divided by the
elapsed time in seconds is 10000.  The kilobytes are whole as well: 1500
bytes in exactly one second give the sample 1, not 3/2. -/
theorem bandwidth_sample_of_sub_millisecond_divides_by_zero :
    0 < Example.us500 ∧
    (PerformanceData.New.AddUncachedTime Example.pageURL Example.us500
      5000).uncachedBandwidthLane Example.pageURL = [{ kilobytes := 5, millis := 0 }] ∧
    (PerformanceData.New.AddCachedTime Example.pageURL Example.us500
      5000).cachedBandwidthLane Example.pageURL = [{ kilobytes := 5, millis := 0 }] ∧
    ({ kilobytes := 5, millis := 0 } : BandwidthSample).value = none ∧
    Spec.bandwidth 5000 Example.us500 = 10000 ∧
    (PerformanceData.New.AddUncachedTime Example.pageURL Example.oneSecond
      1500).uncachedBandwidthLane Example.pageURL = [{ kilobytes := 1, millis := 1000 }] ∧
    ({ kilobytes := 1, millis := 1000 } : BandwidthSample).value = some 1 ∧
    Spec.bandwidth 1500 Example.oneSecond = 3 / 2 := by
  refine ⟨by decide, by decide, by decide, rfl, ?_, by decide, ?_, ?_⟩
  · norm_num [Spec.bandwidth, Example.us500]
  · have h := PerformanceData.value_of_millisecond Example.oneSecond 1500 (by decide)
    have e : PerformanceData.bandwidthSample Example.oneSecond 1500 =
        { kilobytes := 1, millis := 1000 } := by decide
    rw [e] at h
    rw [h]
    have k1 : Int.tdiv 1500 1000 = 1 := by decide
    have k2 : Int.tdiv Example.oneSecond 1000000 = 1000 := by decide
    rw [k1, k2]
    norm_num
  · norm_num [Spec.bandwidth, Example.oneSecond]

/-- C11, amended: for every site, content length and elapsed time,
`AddUncachedTime` appends one sample to the uncached bandwidth lane of the
site and leaves its cached bandwidth lane as it was, and `AddCachedTime`
does the same with the lanes exchanged.  The sample is the quotient of the
whole kilobytes `contentLength / 1000` (integer division) by the whole
milliseconds of the elapsed time taken as seconds.  For an elapsed time of
at least one millisecond its exact value is that quotient (the `float64`
result is this value up to rounding), and it is the content length in kB
divided by the elapsed time in seconds whenever the content length is a
multiple of 1000 bytes and the elapsed time a whole number of milliseconds.
For an elapsed time below one millisecond the divisor is 0 and the sample is
no finite number. -/
theorem bandwidth_sample_appended (p : PerformanceData) (site : url.URL)
    (responseTime : Duration) (contentLength : Int) :
    (p.AddUncachedTime site responseTime contentLength).uncachedBandwidthLane site =
      p.uncachedBandwidthLane site ++
        [{ kilobytes := Int.tdiv contentLength 1000,
           millis := Int.tdiv responseTime 1000000 }] ∧
    (p.AddUncachedTime site responseTime contentLength).cachedBandwidthLane site =
      p.cachedBandwidthLane site ∧
    (p.AddCachedTime site responseTime contentLength).cachedBandwidthLane site =
      p.cachedBandwidthLane site ++
        [{ kilobytes := Int.tdiv contentLength 1000,
           millis := Int.tdiv responseTime 1000000 }] ∧
    (p.AddCachedTime site responseTime contentLength).uncachedBandwidthLane site =
      p.uncachedBandwidthLane site ∧
    (1000000 ≤ responseTime →
      ({ kilobytes := Int.tdiv contentLength 1000,
         millis := Int.tdiv responseTime 1000000 } : BandwidthSample).value =
        some (((Int.tdiv contentLength 1000 : Int) : ℚ) /
          (((Int.tdiv responseTime 1000000 : Int) : ℚ) / 1000))) ∧
    (0 < responseTime → (1000 : Int) ∣ contentLength → (1000000 : Int) ∣ responseTime →
      ({ kilobytes := Int.tdiv contentLength 1000,
         millis := Int.tdiv responseTime 1000000 } : BandwidthSample).value =
        some (Spec.bandwidth contentLength responseTime)) ∧
    (0 ≤ responseTime → responseTime < 1000000 →
      ({ kilobytes := Int.tdiv contentLength 1000,
         millis := Int.tdiv responseTime 1000000 } : BandwidthSample).value = none) := by
  have hs : PerformanceData.bandwidthSample responseTime contentLength =
      { kilobytes := Int.tdiv contentLength 1000,
        millis := Int.tdiv responseTime 1000000 } := rfl
  have hu := PerformanceData.bandwidthLanes_addUncached p site responseTime contentLength
  have hc := PerformanceData.bandwidthLanes_addCached p site responseTime contentLength
  rw [hs] at hu hc
  refine ⟨hu.1, hu.2, hc.1, hc.2, ?_, ?_, ?_⟩
  · intro hd
    rw [← hs]
    exact PerformanceData.value_of_millisecond responseTime contentLength hd
  · intro hpos hk hm
    obtain ⟨a, ha⟩ := hk
    obtain ⟨b, hb⟩ := hm
    have hge : ∀ x y : Int, 0 < x → x = 1000000 * y → 1000000 ≤ x := by
      intro x y hx hxy
      omega
    rw [← hs, PerformanceData.value_of_millisecond responseTime contentLength
      (hge responseTime b hpos hb)]
    have e1 : Int.tdiv contentLength 1000 = a := by
      rw [ha]
      exact Int.mul_tdiv_cancel_left a (by decide)
    have e2 : Int.tdiv responseTime 1000000 = b := by
      rw [hb]
      exact Int.mul_tdiv_cancel_left b (by decide)
    have hb0 : (b : ℚ) ≠ 0 := by
      have hbne : ∀ x y : Int, 0 < x → x = 1000000 * y → y ≠ 0 := by
        intro x y hx hxy
        omega
      exact_mod_cast hbne responseTime b hpos hb
    rw [e1, e2]
    unfold Spec.bandwidth
    have c1 : ((contentLength : Int) : ℚ) = 1000 * (a : ℚ) := by
      have : contentLength = 1000 * a := ha
      rw [this]
      push_cast
      ring
    have c2 : ((responseTime : Int) : ℚ) = 1000000 * (b : ℚ) := by
      have : (responseTime : Int) = 1000000 * b := hb
      rw [this]
      push_cast
      ring
    rw [c1, c2]
    congr 1
    field_simp
    ring
  · intro h0 hlt
    rw [← hs]
    exact (PerformanceData.value_of_sub_millisecond responseTime contentLength h0 hlt).2

/-- C11, amended, at the example of the specification: a body of 100,000
bytes served in exactly one second gives an uncached bandwidth sample of
100. -/
theorem bandwidth_sample_appended_witness :
    (PerformanceData.New.AddUncachedTime Example.pageURL Example.oneSecond
      100000).uncachedBandwidthLane Example.pageURL =
        [{ kilobytes := 100, millis := 1000 }] ∧
    ({ kilobytes := 100, millis := 1000 } : BandwidthSample).value = some 100 ∧
    Spec.bandwidth 100000 Example.oneSecond = 100 :=
  ⟨(bandwidth_sample_appended PerformanceData.New Example.pageURL Example.oneSecond
      100000).1,
    ((bandwidth_sample_appended PerformanceData.New Example.pageURL Example.oneSecond
      100000).2.2.2.2.2.1 (by decide) (by decide) (by decide)).trans
      (by norm_num [Spec.bandwidth, Example.oneSecond]),
    by norm_num [Spec.bandwidth, Example.oneSecond]⟩

/-! ## The status codes in the cache -/

theorem GoMap.mem_set {κ ν : Type} [DecidableEq κ] (m : GoMap κ ν) (k : κ) (v : ν)
    (e : κ × ν) (he : e ∈ GoMap.set m k v) : e = (k, v) ∨ e ∈ m := by
  induction m with
  | nil =>
    simp only [GoMap.set, List.mem_singleton] at he
    exact Or.inl he
  | cons x rest ih =>
    obtain ⟨k1, v1⟩ := x
    by_cases hk : k1 = k
    · simp only [GoMap.set, hk, if_true, List.mem_cons] at he
      rcases he with he | he
      · exact Or.inl he
      · exact Or.inr (List.mem_cons_of_mem _ he)
    · simp only [GoMap.set, hk, if_false, List.mem_cons] at he
      rcases he with he | he
      · exact Or.inr (by simp [he])
      · rcases ih he with h | h
        · exact Or.inl h
        · exact Or.inr (List.mem_cons_of_mem _ h)

namespace Proxy

theorem recordTime_stores (env : Env) (p : Proxy) (site : url.URL) (st : Time) (c : Bool)
    (n : Int) :
    (recordTime env p site st c n).CachedSites = p.CachedSites ∧
    (recordTime env p site st c n).BlockedSites = p.BlockedSites := by
  unfold recordTime
  split
  · exact ⟨rfl, rfl⟩
  · split <;> exact ⟨rfl, rfl⟩

/-- The cache after `handleHTTP` is the cache before, or the cache before
with a response of an accepted status code added. -/
theorem handleHTTP_cache (env : Env) (p : Proxy) (w : http.ResponseWriter)
    (req : http.Request) :
    (handleHTTP env p w req).1.CachedSites = p.CachedSites ∨
    ∃ (resp : http.Response) (body : GoString),
      (100 ≤ resp.StatusCode ∧ resp.StatusCode ≤ 999 ∨ w.wroteHeader = true) ∧
      (handleHTTP env p w req).1.CachedSites =
        p.CachedSites.AddToCache env.cachedAt req.URL resp body := by
  unfold handleHTTP
  cases hf : env.clientDo req with
  | doFailed err => exact Or.inl rfl
  | readFailed resp err => exact Or.inl rfl
  | fetched resp body =>
    by_cases hw : w.wroteHeader = true
    · simp only [copyHeaders_eq]
      split
      · exact Or.inl rfl
      · right
        refine ⟨resp, body, Or.inr hw, ?_⟩
        split
        · rfl
        · split
          · split <;> rfl
          · rfl
    · by_cases hs : 100 ≤ resp.StatusCode ∧ resp.StatusCode ≤ 999
      · simp only [copyHeaders_eq]
        split
        · exact Or.inl rfl
        · right
          refine ⟨resp, body, Or.inl hs, ?_⟩
          split
          · rfl
          · split
            · split <;> rfl
            · rfl
      · left
        simp [copyHeaders_eq, http.ResponseWriter.WriteHeader, http.validWriteHeaderCode,
          hw, hs]

end Proxy

/-- The handler keeps the cache free of status codes `WriteHeader` rejects: a
response is cached only after `w.WriteHeader(resp.StatusCode)` has accepted
its code.  So do the empty cache and the eviction sweep. -/
theorem cache_statuses_stay_valid (env : Env) (p : Proxy) (req : http.Request)
    (hv : p.CachedSites.validStatuses) :
    (Proxy.serve env p req).proxy.CachedSites.validStatuses ∧
    CachedSites.New.validStatuses ∧
    ∀ clock, (p.CachedSites.keepCacheCleanSweep clock).validStatuses := by
  refine ⟨?_, ?_, ?_⟩
  · have key : (Proxy.serve env p req).proxy.CachedSites = p.CachedSites ∨
        ∃ (resp : http.Response) (body : GoString),
          (100 ≤ resp.StatusCode ∧ resp.StatusCode ≤ 999) ∧
          (Proxy.serve env p req).proxy.CachedSites =
            p.CachedSites.AddToCache env.cachedAt req.URL resp body := by
      simp only [Proxy.serve, Proxy.requestHandler]
      split
      · exact Or.inl rfl
      · split
        · split
          · exact Or.inl rfl
          · exact Or.inl (Proxy.recordTime_stores _ _ _ _ _ _).1
        · split
          · split
            · exact Or.inl rfl
            · exact Or.inl (Proxy.recordTime_stores _ _ _ _ _ _).1
          · have hh := Proxy.handleHTTP_cache env p http.newResponseWriter
              { req with RequestURI := [] }
            have hfix : ∀ q : Proxy,
                (q.CachedSites = p.CachedSites ∨
                  ∃ (resp : http.Response) (body : GoString),
                    (100 ≤ resp.StatusCode ∧ resp.StatusCode ≤ 999 ∨
                      http.newResponseWriter.wroteHeader = true) ∧
                    q.CachedSites = p.CachedSites.AddToCache env.cachedAt req.URL resp body) →
                (q.CachedSites = p.CachedSites ∨
                  ∃ (resp : http.Response) (body : GoString),
                    (100 ≤ resp.StatusCode ∧ resp.StatusCode ≤ 999) ∧
                    q.CachedSites = p.CachedSites.AddToCache env.cachedAt req.URL resp body) := by
              intro q hq
              rcases hq with hq | ⟨resp, body, hs, hq⟩
              · exact Or.inl hq
              · rcases hs with hs | hs
                · exact Or.inr ⟨resp, body, hs, hq⟩
                · exact absurd hs (by decide)
            split
            · exact hfix _ hh
            · have hr := (Proxy.recordTime_stores env
                (Proxy.handleHTTP env p http.newResponseWriter
                  { req with RequestURI := [] }).1 req.URL env.startTime false
                (Proxy.handleHTTP env p http.newResponseWriter
                  { req with RequestURI := [] }).2.2.2).1
              have := hfix _ hh
              rcases this with h1 | ⟨resp, body, hs, h1⟩
              · exact Or.inl (hr.trans h1)
              · exact Or.inr ⟨resp, body, hs, hr.trans h1⟩
    rcases key with h | ⟨resp, body, hs, h⟩
    · rw [h]; exact hv
    · rw [h]
      intro e he
      rcases GoMap.mem_set _ _ _ _ he with h1 | h1
      · rw [h1]; exact hs
      · exact hv e h1
  · intro e he
    simp [CachedSites.New] at he
  · intro clock e he
    exact hv e (List.mem_of_mem_filter he)
